import Mathlib

/-!
Verification of the autoGUI inference-resilience core against its
natural-language specification.

The TypeScript sources are shallowly embedded:
* `ShellExecutor` (utils/shellExecutor.ts): block policy and directory
  confinement of the Command Safety Gate;
* `AIClient` (utils/ai.ts): model pool, round-robin cursor, attempt loop
  with failure classification, tolerant response recovery, action
  normalization and validation;
* `Agent` (agent.ts): control loop, cancellation checks, repeated-action
  detection, shell working-directory tracking.

JavaScript strings are modelled as `List Char` wherever string surgery is
reasoned about; `String` wrappers convert via `.data`.  JavaScript numbers
are modelled as `Option Rat` (`none` = NaN); JSON values as an inductive
`JValue`.
-/

namespace AutoGUI

/-! ## JavaScript string primitives (on `List Char`) -/

/-- JS `\s` / `String.prototype.trim` whitespace test (ASCII fragment). -/
def isWs (c : Char) : Bool := c.isWhitespace

/-- Drop leading whitespace (left part of JS `trim`). -/
def ltrimL (l : List Char) : List Char := l.dropWhile isWs

/-- Drop trailing whitespace (right part of JS `trim`). -/
def rtrimL (l : List Char) : List Char := ((l.reverse).dropWhile isWs).reverse

/-- JS `String.prototype.trim`. -/
def trimL (l : List Char) : List Char := rtrimL (ltrimL l)

/-- JS `String.prototype.startsWith`. -/
def startsWithL (l pat : List Char) : Bool := pat.isPrefixOf l

/-- JS `String.prototype.endsWith`. -/
def endsWithL (l pat : List Char) : Bool := pat.reverse.isPrefixOf l.reverse

/-- Case-insensitive `startsWith` (for `/i`-flagged anchored regexes). -/
def startsWithCiL (l pat : List Char) : Bool :=
  (pat.map Char.toLower).isPrefixOf (l.map Char.toLower)

/-- JS `String.prototype.includes`. -/
def containsL (l pat : List Char) : Bool :=
  (l.tails).any (fun t => pat.isPrefixOf t)

/-- JS `String.prototype.includes` on `String`. -/
def strContains (s pat : String) : Bool := containsL s.data pat.data

/-- JS `trim` on `String`. -/
def strTrim (s : String) : String := ⟨trimL s.data⟩

/-- JS `startsWith` on `String`. -/
def strStartsWith (s pat : String) : Bool := startsWithL s.data pat.data

/-- JS `toLowerCase` on `String` (ASCII fragment). -/
def strToLower (s : String) : String := ⟨s.data.map Char.toLower⟩

/-! ## POSIX path model (`node:path` resolve / isAbsolute) -/

/-- `path.isAbsolute` for POSIX paths. -/
def pathIsAbsolute (p : String) : Bool := strStartsWith p "/"

/-- Split a character list on `/` separators. -/
def splitSlash : List Char → List Char → List (List Char)
  | [], acc => [acc.reverse]
  | c :: rest, acc =>
    if c = '/' then acc.reverse :: splitSlash rest []
    else splitSlash rest (c :: acc)

/-- Split a path on `/`, dropping empty segments. -/
def splitPath (p : String) : List String :=
  ((splitSlash p.data []).map (fun l => String.mk l)).filter (fun seg => seg ≠ "")

/-- Process `.` and `..` segments the way `path.resolve` normalizes an
absolute path: `..` pops the previous segment (a no-op at the root). -/
def normSegs (segs : List String) : List String :=
  segs.foldl
    (fun acc seg =>
      if seg = "." then acc
      else if seg = ".." then acc.dropLast
      else acc ++ [seg])
    []

/-- `path.resolve(cwd, p)` for POSIX paths: absolute `p` is normalized on
its own, a relative `p` is joined onto `cwd` first. -/
def resolvePath (cwd p : String) : String :=
  let segs := if pathIsAbsolute p then splitPath p else splitPath cwd ++ splitPath p
  "/" ++ String.intercalate "/" (normSegs segs)

/-! ## Command Safety Gate (`ShellExecutor`) -/

/-- `ShellResult` (types/index.ts). -/
structure ShellResult where
  stdout : String
  stderr : String
  exit_code : Int
  duration : Nat
  command : String
deriving Repr, DecidableEq

/-- `ShellExecutor.isBlocked` (shellExecutor.ts lines 653-673): blocklist
entries beginning with `^` are regular expressions (the JS `RegExp` engine
is abstracted as the `regexTest` argument); every other entry matches the
lowercased trimmed command exactly or as a space-terminated prefix. -/
def isBlocked (blockedCommands : List String) (regexTest : String → String → Bool)
    (command : String) : Bool :=
  let normalizedCmd := strTrim (strToLower command)
  blockedCommands.any (fun blocked =>
    if strStartsWith blocked "^" then regexTest blocked normalizedCmd
    else normalizedCmd == blocked || strStartsWith normalizedCmd (blocked ++ " "))

/-- `ShellExecutor.validateWorkDir` (shellExecutor.ts lines 678-696).
`cwd` stands for `process.cwd()`.  No working directory returns the
process cwd unchecked; otherwise the directory is resolved and accepted
when some allowed directory's resolution is a *string prefix* of it
(`String.prototype.startsWith`), or when the allowed list is empty. -/
def validateWorkDir (allowedDirectories : List String) (cwd : String)
    (workDir : Option String) : Except String String :=
  match workDir with
  | none => .ok cwd
  | some wd =>
    if wd = "" then .ok cwd  -- JS: `if (!workDir)` is also true for ''
    else
      let resolvedPath := resolvePath cwd wd
      let isAllowed := allowedDirectories.any (fun dir =>
        strStartsWith resolvedPath (resolvePath cwd dir))
      if !isAllowed && allowedDirectories.length > 0 then
        .error ("工作目录不允许：" ++ wd ++ "，允许的目录：" ++
          String.intercalate ", " allowedDirectories)
      else .ok resolvedPath

/-- The safety-gate portion of `ShellExecutor.execute` (shellExecutor.ts
lines 701-774): the block check and the directory check run before the
command is handed to the host interpreter, which is abstracted as
`runner`; a gate failure therefore never consults `runner`. -/
def shellExecuteGate (allowedDirectories : List String)
    (blockedCommands : List String) (regexTest : String → String → Bool)
    (cwd : String) (runner : String → String → ShellResult)
    (command : String) (workDir : Option String) : Except String ShellResult :=
  if isBlocked blockedCommands regexTest command then
    .error ("命令被阻止：" ++ command)
  else
    match validateWorkDir allowedDirectories cwd workDir with
    | .error e => .error e
    | .ok validWorkDir => .ok (runner command validWorkDir)

/-- Spec-side predicate (§4.3 Directory confinement): the resolved path is
equal to, or a descendant of, a root (descendant = the root followed by a
path separator is a prefix). -/
def isDescendantOrEqual (p root : String) : Bool :=
  p == root || strStartsWith p (root ++ "/")

/-! ## JavaScript number model

JS numbers appearing in this code base are decimal literals and the
results of `Number(...)` conversions on them; they are modelled exactly as
`mant / 10 ^ fexp` in a canonical form (no trailing zero digits in the
fraction), with `Option JSNumber` standing for a possibly-NaN value
(`none` = NaN). -/

/-- Strip factors of 10 shared between the mantissa and the fractional
exponent, so that equal decimals have equal representations. -/
def normDec : Int → Nat → Int × Nat
  | n, 0 => (n, 0)
  | n, k + 1 => if n % 10 = 0 then normDec (n / 10) k else (n, k + 1)

structure JSNumber where
  mant : Int
  fexp : Nat
deriving Repr, DecidableEq

/-- Build the canonical representation of `m / 10 ^ k`. -/
def JSNumber.make (m : Int) (k : Nat) : JSNumber :=
  if m = 0 then ⟨0, 0⟩ else ⟨(normDec m k).1, (normDec m k).2⟩

def JSNumber.ofInt (m : Int) : JSNumber := ⟨m, 0⟩

/-- Left-pad a numeral with zeros to `k` digits. -/
def padZeros (s : String) (k : Nat) : String :=
  String.mk (List.replicate (k - s.data.length) '0') ++ s

/-- JS `Number.prototype.toString` for the decimals of this model. -/
def JSNumber.render (q : JSNumber) : String :=
  if q.fexp = 0 then toString q.mant
  else
    let a := q.mant.natAbs
    let p := 10 ^ q.fexp
    (if q.mant < 0 then "-" else "") ++
      toString (a / p) ++ "." ++ padZeros (toString (a % p)) q.fexp

/-- JS `Number.prototype.toFixed(2)` (round half away from zero). -/
def JSNumber.toFixed2 (q : JSNumber) : String :=
  let a :=
    if q.fexp ≤ 2 then q.mant.natAbs * 10 ^ (2 - q.fexp)
    else
      let p := 10 ^ (q.fexp - 2)
      (q.mant.natAbs * 2 + p) / (2 * p)
  (if q.mant < 0 && a ≠ 0 then "-" else "") ++
    toString (a / 100) ++ "." ++ padZeros (toString (a % 100)) 2

/-! ## JSON value model (`JSON.parse` output universe) -/

inductive JValue where
  | jnull
  | jbool (b : Bool)
  | jnum (q : JSNumber)
  | jstr (s : String)
  | jarr (elems : List JValue)
  | jobj (fields : List (String × JValue))
deriving Repr

/-- Property access `v[name]` for objects parsed from JSON; with duplicate
keys `JSON.parse` keeps the last occurrence.  Member access on non-objects
yields `undefined` (`none`); no claim exercises the JS corner where member
access on `null` itself throws. -/
def jsField : JValue → String → Option JValue
  | .jobj fs, name => fs.reverse.lookup name
  | _, _ => none

/-- JS truthiness of a parsed JSON value. -/
def jsTruthy : JValue → Bool
  | .jnull => false
  | .jbool b => b
  | .jnum q => !(q.mant == 0)
  | .jstr s => !(s == "")
  | .jarr _ => true
  | .jobj _ => true

/-- JS truthiness with `none` standing for `undefined`. -/
def jsTruthyOpt : Option JValue → Bool
  | none => false
  | some v => jsTruthy v

/-- `List.intercalate ","` written out so it kernel-reduces. -/
def joinComma : List String → String
  | [] => ""
  | [s] => s
  | s :: rest => s ++ "," ++ joinComma rest

mutual
/-- JS `String(v)` on a parsed JSON value. -/
def jsToString : JValue → String
  | .jnull => "null"
  | .jbool b => if b then "true" else "false"
  | .jnum q => q.render
  | .jstr s => s
  | .jarr xs => joinComma (jsToStringElems xs)
  | .jobj _ => "[object Object]"

/-- `Array.prototype.join`, where `null`/`undefined` elements render as
the empty string. -/
def jsToStringElems : List JValue → List String
  | [] => []
  | .jnull :: vs => "" :: jsToStringElems vs
  | v :: vs => jsToString v :: jsToStringElems vs
end

def digitVal (c : Char) : Nat := c.toNat - '0'.toNat

/-- Consume a run of decimal digits, returning the accumulated value, the
number of digits read and the remaining input. -/
def parseDigits : List Char → Nat → Nat → Nat × Nat × List Char
  | c :: rest, acc, cnt =>
    if c.isDigit then parseDigits rest (acc * 10 + digitVal c) (cnt + 1)
    else (acc, cnt, c :: rest)
  | [], acc, cnt => (acc, cnt, [])

/-- The decimal fragment of JS `Number("...")`: optional sign, digits,
optional fraction, entire input consumed.  (Exponent, hex and `Infinity`
forms never occur in the values this code base manipulates; unparsable
text is NaN = `none`.) -/
def parseNumChars (l : List Char) : Option JSNumber :=
  let (neg, l1) :=
    match l with
    | '-' :: r => (true, r)
    | '+' :: r => (false, r)
    | _ => (false, l)
  let (ip, icnt, l2) := parseDigits l1 0 0
  let (fp, fcnt, l3) :=
    match l2 with
    | '.' :: r => parseDigits r 0 0
    | _ => (0, 0, l2)
  if icnt + fcnt = 0 then none
  else if l3 ≠ [] then none
  else
    let m : Int := Int.ofNat (ip * 10 ^ fcnt + fp)
    some (JSNumber.make (if neg then -m else m) fcnt)

/-- JS `Number(string)`: whitespace-only is `0`, otherwise the decimal
fragment above. -/
def jsStringToNumber (s : String) : Option JSNumber :=
  let t := trimL s.data
  if t = [] then some (JSNumber.make 0 0) else parseNumChars t

/-- JS `Number(v)` on a parsed JSON value (`none` = NaN). -/
def jsToNumber : JValue → Option JSNumber
  | .jnull => some (JSNumber.make 0 0)
  | .jbool b => some (JSNumber.make (if b then 1 else 0) 0)
  | .jnum q => some q
  | .jstr s => jsStringToNumber s
  | .jarr xs => jsStringToNumber (jsToString (.jarr xs))
  | .jobj _ => none

/-! ## `JSON.parse` model (strict JSON grammar, fueled) -/

/-- JSON number: `-? (0 | [1-9][0-9]*) (. [0-9]+)? ([eE][+-]?[0-9]+)?`. -/
def parseJNumber (l : List Char) : Option (JSNumber × List Char) :=
  let (neg, l1) :=
    match l with
    | '-' :: r => (true, r)
    | _ => (false, l)
  let ipart : Option (Nat × List Char) :=
    match l1 with
    | '0' :: r =>
      match r with
      | c :: _ => if c.isDigit then none else some (0, r)
      | [] => some (0, [])
    | c :: _ =>
      if c.isDigit then
        let (ip, _, r) := parseDigits l1 0 0
        some (ip, r)
      else none
    | [] => none
  match ipart with
  | none => none
  | some (ip, l2) =>
    let fpart : Option (Nat × Nat × List Char) :=
      match l2 with
      | '.' :: r =>
        let (fp, fcnt, r') := parseDigits r 0 0
        if fcnt = 0 then none else some (fp, fcnt, r')
      | _ => some (0, 0, l2)
    match fpart with
    | none => none
    | some (fp, fcnt, l3) =>
      let epart : Option (Bool × Nat × List Char) :=
        match l3 with
        | c :: r =>
          if c = 'e' ∨ c = 'E' then
            let (eneg, r1) :=
              match r with
              | '-' :: r' => (true, r')
              | '+' :: r' => (false, r')
              | _ => (false, r)
            let (ev, ecnt, r2) := parseDigits r1 0 0
            if ecnt = 0 then none else some (eneg, ev, r2)
          else some (false, 0, l3)
        | [] => some (false, 0, [])
      match epart with
      | none => none
      | some (eneg, ev, l4) =>
        let m : Int := Int.ofNat (ip * 10 ^ fcnt + fp)
        let m := if neg then -m else m
        let q :=
          if eneg then JSNumber.make m (fcnt + ev)
          else JSNumber.make (m * Int.ofNat (10 ^ ev)) fcnt
        some (q, l4)

def hexVal (c : Char) : Option Nat :=
  if c.isDigit then some (digitVal c)
  else if 'a' ≤ c ∧ c ≤ 'f' then some (c.toNat - 'a'.toNat + 10)
  else if 'A' ≤ c ∧ c ≤ 'F' then some (c.toNat - 'A'.toNat + 10)
  else none

/-- JSON string body after the opening quote, with escape handling. -/
def parseJStringBody : Nat → List Char → List Char → Option (String × List Char)
  | 0, _, _ => none
  | fuel + 1, acc, l =>
    match l with
    | [] => none
    | '"' :: rest => some (String.mk acc.reverse, rest)
    | '\\' :: e :: rest =>
      match e with
      | '"' => parseJStringBody fuel ('"' :: acc) rest
      | '\\' => parseJStringBody fuel ('\\' :: acc) rest
      | '/' => parseJStringBody fuel ('/' :: acc) rest
      | 'b' => parseJStringBody fuel ('\x08' :: acc) rest
      | 'f' => parseJStringBody fuel ('\x0c' :: acc) rest
      | 'n' => parseJStringBody fuel ('\n' :: acc) rest
      | 'r' => parseJStringBody fuel ('\r' :: acc) rest
      | 't' => parseJStringBody fuel ('\t' :: acc) rest
      | 'u' =>
        match rest with
        | h1 :: h2 :: h3 :: h4 :: rest' =>
          match hexVal h1, hexVal h2, hexVal h3, hexVal h4 with
          | some a, some b, some c, some d =>
            let n := ((a * 16 + b) * 16 + c) * 16 + d
            if h : n.isValidChar then
              parseJStringBody fuel (Char.ofNatAux n h :: acc) rest'
            else parseJStringBody fuel ('�' :: acc) rest'
          | _, _, _, _ => none
        | _ => none
      | _ => none
    | c :: rest =>
      if c.toNat < 0x20 then none else parseJStringBody fuel (c :: acc) rest

mutual
def parseValueF : Nat → List Char → Option (JValue × List Char)
  | 0, _ => none
  | fuel + 1, l =>
    let l := l.dropWhile isWs
    match l with
    | [] => none
    | c :: rest =>
      if c = '{' then parseObjF fuel rest
      else if c = '[' then parseArrF fuel rest
      else if c = '"' then
        match parseJStringBody (rest.length + 1) [] rest with
        | some (s, r) => some (.jstr s, r)
        | none => none
      else if startsWithL l "true".data then some (.jbool true, l.drop 4)
      else if startsWithL l "false".data then some (.jbool false, l.drop 5)
      else if startsWithL l "null".data then some (.jnull, l.drop 4)
      else
        match parseJNumber l with
        | some (q, r) => some (.jnum q, r)
        | none => none

def parseObjF : Nat → List Char → Option (JValue × List Char)
  | 0, _ => none
  | fuel + 1, l =>
    let l := l.dropWhile isWs
    match l with
    | '}' :: rest => some (.jobj [], rest)
    | _ => parseMembersF fuel l []

def parseMembersF : Nat → List Char → List (String × JValue) →
    Option (JValue × List Char)
  | 0, _, _ => none
  | fuel + 1, l, acc =>
    let l := l.dropWhile isWs
    match l with
    | '"' :: rest =>
      match parseJStringBody (rest.length + 1) [] rest with
      | none => none
      | some (key, r1) =>
        match r1.dropWhile isWs with
        | ':' :: r3 =>
          match parseValueF fuel r3 with
          | none => none
          | some (v, r4) =>
            match r4.dropWhile isWs with
            | ',' :: r6 => parseMembersF fuel r6 (acc ++ [(key, v)])
            | '}' :: r6 => some (.jobj (acc ++ [(key, v)]), r6)
            | _ => none
        | _ => none
    | _ => none

def parseArrF : Nat → List Char → Option (JValue × List Char)
  | 0, _ => none
  | fuel + 1, l =>
    let l := l.dropWhile isWs
    match l with
    | ']' :: rest => some (.jarr [], rest)
    | _ => parseElemsF fuel l []

def parseElemsF : Nat → List Char → List JValue → Option (JValue × List Char)
  | 0, _, _ => none
  | fuel + 1, l, acc =>
    match parseValueF fuel l with
    | none => none
    | some (v, r) =>
      match r.dropWhile isWs with
      | ',' :: r2 => parseElemsF fuel r2 (acc ++ [v])
      | ']' :: r2 => some (.jarr (acc ++ [v]), r2)
      | _ => none
end

/-- `JSON.parse`: one value, then only trailing whitespace. -/
def jsonParseL (l : List Char) : Option JValue :=
  match parseValueF (2 * l.length + 2) l with
  | some (v, rest) => if rest.dropWhile isWs = [] then some v else none
  | none => none

/-! ## Action model (types/index.ts) and the Response Recoverer -/

/-- `ActionType` (types/index.ts lines 2-15). -/
inductive ActionType where
  | click | double_click | right_click | long_press | type | enter | press
  | scroll | drag | move | wait | task_complete | shell
deriving Repr, DecidableEq

/-- The normalized `Action` produced by `AIClient.fixActionFormat`:
numeric fields hold `Number(...)` results (`some none` = NaN), string
fields hold `String(...)` results, `keys` holds the raw array. -/
structure FixedAction where
  action : ActionType
  x : Option (Option JSNumber) := none
  y : Option (Option JSNumber) := none
  end_x : Option (Option JSNumber) := none
  end_y : Option (Option JSNumber) := none
  text : Option String := none
  keys : Option (List JValue) := none
  duration : Option (Option JSNumber) := none
  hold_seconds : Option (Option JSNumber) := none
  scroll_amount : Option (Option JSNumber) := none
  command : Option String := none
  shell : Option String := none
  timeout : Option (Option JSNumber) := none
  work_dir : Option String := none
  capture_output : Option Bool := none
deriving Repr

/-- `AIClient.normalizeActionType` (ai.ts lines 380-412): lowercase the
`String(actionType || '')` rendering, apply the synonym table, default to
`wait`. -/
def normalizeActionType (actionType : Option JValue) : ActionType :=
  let raw := strToLower
    (if jsTruthyOpt actionType then jsToString (actionType.getD .jnull) else "")
  if raw = "click" then .click
  else if raw = "double_click" then .double_click
  else if raw = "right_click" then .right_click
  else if raw = "long_press" then .long_press
  else if raw = "long_click" then .long_press
  else if raw = "hold_click" then .long_press
  else if raw = "click_and_hold" then .long_press
  else if raw = "press_and_hold" then .long_press
  else if raw = "type" then .type
  else if raw = "enter" then .enter
  else if raw = "press" then .press
  else if raw = "scroll" then .scroll
  else if raw = "drag" then .drag
  else if raw = "move" then .move
  else if raw = "wait" then .wait
  else if raw = "task_complete" then .task_complete
  else if raw = "shell" then .shell
  else if raw = "command" then .shell
  else if raw = "cmd" then .shell
  else if raw = "run" then .shell
  else if raw = "execute" then .shell
  else if raw = "press_enter" then .enter
  else if raw = "submit" then .enter
  else if raw = "send" then .enter
  else if raw = "confirm" then .enter
  else if raw = "key_enter" then .enter
  else .wait

/-- The `{ action: 'wait', duration: 1000 }` fallback object. -/
def waitDefaultAction : FixedAction :=
  { action := .wait, duration := some (some (JSNumber.ofInt 1000)) }

/-- `AIClient.fixActionFormat` (ai.ts lines 330-378).  A falsy action and
a `shell` action with a falsy or blank command fall back to a 1000ms
`wait`; coordinate fields supplied as an array of length ≥ 2 are unpacked;
every other present field is converted with `Number`/`String`/`Boolean`.
-/
def fixActionFormat (action : Option JValue) : FixedAction :=
  if jsTruthyOpt action = false then waitDefaultAction
  else
    let a := action.getD .jnull
    let normalizedAction := normalizeActionType (jsField a "action")
    let cmd := jsField a "command"
    if normalizedAction = .shell
        ∧ (jsTruthyOpt cmd = false
            ∨ strTrim (jsToString (cmd.getD .jnull)) = "") then
      waitDefaultAction
    else
      let xy : Option (Option JSNumber) × Option (Option JSNumber) :=
        match jsField a "x" with
        | some (.jarr xs) =>
          if xs.length ≥ 2 then
            (some (jsToNumber (xs.getD 0 .jnull)),
             some (jsToNumber (xs.getD 1 .jnull)))
          else
            ((jsField a "x").map jsToNumber, (jsField a "y").map jsToNumber)
        | _ => ((jsField a "x").map jsToNumber, (jsField a "y").map jsToNumber)
      let endxy : Option (Option JSNumber) × Option (Option JSNumber) :=
        match jsField a "end_x" with
        | some (.jarr xs) =>
          if xs.length ≥ 2 then
            (some (jsToNumber (xs.getD 0 .jnull)),
             some (jsToNumber (xs.getD 1 .jnull)))
          else
            ((jsField a "end_x").map jsToNumber,
             (jsField a "end_y").map jsToNumber)
        | _ =>
          ((jsField a "end_x").map jsToNumber,
           (jsField a "end_y").map jsToNumber)
      { action := normalizedAction
        x := xy.1
        y := xy.2
        end_x := endxy.1
        end_y := endxy.2
        text := (jsField a "text").map jsToString
        keys :=
          match jsField a "keys" with
          | none => none
          | some (.jarr xs) => some xs
          | some v => some [.jstr (jsToString v)]
        duration := (jsField a "duration").map jsToNumber
        hold_seconds := (jsField a "hold_seconds").map jsToNumber
        scroll_amount := (jsField a "scroll_amount").map jsToNumber
        command := cmd.map jsToString
        shell := (jsField a "shell").map jsToString
        timeout := (jsField a "timeout").map jsToNumber
        work_dir := (jsField a "work_dir").map jsToString
        capture_output := (jsField a "capture_output").map jsTruthy }

/-- `typeof v === 'number' && Number.isFinite(v)`: the field is present
and its `Number(...)` conversion is not NaN. -/
def isNumJS (v : Option (Option JSNumber)) : Bool :=
  match v with
  | some (some _) => true
  | _ => false

def actionFormatErrorMsg (f : String) : String :=
  "ACTION_FORMAT_ERROR: 缺少或无效字段 " ++ f

/-- `AIClient.validateActionOrThrow` (ai.ts lines 454-500).  The `default`
branch of the source (unknown action) is unreachable here because
`ActionType` is exactly the declared union. -/
def validateActionOrThrow (a : FixedAction) : Except String Unit :=
  match a.action with
  | .click | .double_click | .right_click | .move | .long_press =>
    if !isNumJS a.x then .error (actionFormatErrorMsg "x")
    else if !isNumJS a.y then .error (actionFormatErrorMsg "y")
    else .ok ()
  | .drag =>
    if !isNumJS a.x then .error (actionFormatErrorMsg "x")
    else if !isNumJS a.y then .error (actionFormatErrorMsg "y")
    else if !isNumJS a.end_x then .error (actionFormatErrorMsg "end_x")
    else if !isNumJS a.end_y then .error (actionFormatErrorMsg "end_y")
    else .ok ()
  | .type =>
    match a.text with
    | some _ => .ok ()
    | none => .error (actionFormatErrorMsg "text")
  | .press =>
    match a.keys with
    | some ks => if ks.isEmpty then .error (actionFormatErrorMsg "keys") else .ok ()
    | none => .error (actionFormatErrorMsg "keys")
  | .scroll =>
    if !isNumJS a.scroll_amount then .error (actionFormatErrorMsg "scroll_amount")
    else .ok ()
  | .wait =>
    if !isNumJS a.duration then .error (actionFormatErrorMsg "duration")
    else .ok ()
  | .enter | .task_complete => .ok ()
  | .shell =>
    match a.command with
    | some c => if strTrim c = "" then .error (actionFormatErrorMsg "command") else .ok ()
    | none => .error (actionFormatErrorMsg "command")

/-- Spec-side validation table (§4.2 Validation / C6), written from the
spec's words: the first required field that is missing or invalid for the
action's kind, `none` when the action is valid.  To be compared with
`validateActionOrThrow`. -/
def specFirstInvalidField (a : FixedAction) : Option String :=
  match a.action with
  | .click | .double_click | .right_click | .move | .long_press =>
    if !isNumJS a.x then some "x"
    else if !isNumJS a.y then some "y"
    else none
  | .drag =>
    if !isNumJS a.x then some "x"
    else if !isNumJS a.y then some "y"
    else if !isNumJS a.end_x then some "end_x"
    else if !isNumJS a.end_y then some "end_y"
    else none
  | .type =>
    match a.text with
    | some _ => none
    | none => some "text"
  | .press =>
    match a.keys with
    | some ks => if ks.isEmpty then some "keys" else none
    | none => some "keys"
  | .scroll => if !isNumJS a.scroll_amount then some "scroll_amount" else none
  | .wait => if !isNumJS a.duration then some "duration" else none
  | .shell =>
    match a.command with
    | some c => if strTrim c = "" then some "command" else none
    | none => some "command"
  | .enter | .task_complete => none

/-- Drop the last `n` characters (JS `slice(0, len - n)`). -/
def dropLastN (l : List Char) (n : Nat) : List Char := l.take (l.length - n)

/-- The fence-stripping chain of `AIClient.parseResponseJson` (ai.ts lines
418-422): `.replace(/^```json\s*/i, '').replace(/^```\s*/i, '')`
`.replace(/\s*```$/, '').trim()` applied to the trimmed content. -/
def stripFenceL (l : List Char) : List Char :=
  let l1 := if startsWithCiL l "```json".data then ltrimL (l.drop 7) else l
  let l2 := if startsWithCiL l1 "```".data then ltrimL (l1.drop 3) else l1
  let l3 := if endsWithL l2 "```".data then rtrimL (dropLastN l2 3) else l2
  trimL l3

/-- Candidate (b) of `parseResponseJson`: the substring from the first `{`
to the last `}` when the latter is strictly further right (ai.ts lines
426-430). -/
def sliceBraces (l : List Char) : Option (List Char) :=
  match l.findIdx? (· = '{') with
  | none => none
  | some i =>
    match l.reverse.findIdx? (· = '}') with
    | none => none
    | some rj =>
      let j := l.length - 1 - rj
      if i < j then some ((l.drop i).take (j + 1 - i)) else none

/-- The scanning loop of `AIClient.extractFirstBalancedJsonObject` (ai.ts
lines 506-539), carrying depth / in-string / escaped state and the
characters consumed so far (reversed). -/
def balancedScan : List Char → Nat → Bool → Bool → List Char → Option (List Char)
  | [], _, _, _, _ => none
  | c :: rest, depth, inString, escaped, acc =>
    if inString then
      if escaped then balancedScan rest depth true false (c :: acc)
      else if c = '\\' then balancedScan rest depth true true (c :: acc)
      else if c = '"' then balancedScan rest depth false false (c :: acc)
      else balancedScan rest depth true false (c :: acc)
    else if c = '"' then balancedScan rest depth true false (c :: acc)
    else if c = '{' then balancedScan rest (depth + 1) false false (c :: acc)
    else if c = '}' then
      if depth = 1 then some (c :: acc).reverse
      else balancedScan rest (depth - 1) false false (c :: acc)
    else balancedScan rest depth false false (c :: acc)

/-- `AIClient.extractFirstBalancedJsonObject` (ai.ts lines 502-542). -/
def extractFirstBalancedJsonObject (l : List Char) : Option (List Char) :=
  match l.findIdx? (· = '{') with
  | none => none
  | some i => balancedScan (l.drop i) 0 false false []

/-! Regex matchers for `AIClient.recoverActionFromBrokenText` (ai.ts lines
544-573).  Each `text.match(/..../i)` is modelled as a left-to-right scan
for the first position where the pattern matches. -/

/-- Try a matcher at every suffix, leftmost match first (JS
`String.prototype.match` without `g`). -/
def scanFirst (m : List Char → Option α) : List Char → Option α
  | [] => m []
  | l@(_ :: rest) =>
    match m l with
    | some r => some r
    | none => scanFirst m rest

/-- Case-insensitive literal match, returning the rest. -/
def eatLitCi (lit : List Char) (l : List Char) : Option (List Char) :=
  if startsWithCiL l lit ∧ lit.length ≤ l.length then some (l.drop lit.length)
  else none

/-- `"<name>"\s*:\s*` — the shared prefix of the field regexes. -/
def eatFieldPrefix (name : String) (l : List Char) : Option (List Char) :=
  match eatLitCi ("\"" ++ name ++ "\"").data l with
  | none => none
  | some r1 =>
    match (r1.dropWhile isWs) with
    | ':' :: r2 => some (r2.dropWhile isWs)
    | _ => none

/-- `([a-z_]+)` under `/i`: letters or underscores, at least one. -/
def isActionNameChar (c : Char) : Bool :=
  ('a' ≤ c.toLower ∧ c.toLower ≤ 'z') ∨ c = '_'

/-- Matcher for `/"action"\s*:\s*"([a-z_]+)"/i` at one position. -/
def matchActionFieldAt (l : List Char) : Option String :=
  match eatFieldPrefix "action" l with
  | none => none
  | some r =>
    match r with
    | '"' :: r1 =>
      let cap := r1.takeWhile isActionNameChar
      if cap.isEmpty then none
      else
        match r1.drop cap.length with
        | '"' :: _ => some (String.mk cap)
        | _ => none
    | _ => none

/-- Matcher for `/"<name>"\s*:\s*"([^"]*)"/i` at one position. -/
def matchQuotedFieldAt (name : String) (l : List Char) : Option String :=
  match eatFieldPrefix name l with
  | none => none
  | some r =>
    match r with
    | '"' :: r1 =>
      let cap := r1.takeWhile (fun c => c ≠ '"')
      match r1.drop cap.length with
      | '"' :: _ => some (String.mk cap)
      | _ => none
    | _ => none

/-- Matcher for the numeric field regexes at one position;
`allowNeg`/`allowFrac` select between `(-?\d+(?:\.\d+)?)`, `(\d+)` and
`(-?\d+)`. -/
def matchNumFieldAt (name : String) (allowNeg allowFrac : Bool)
    (l : List Char) : Option JSNumber :=
  match eatFieldPrefix name l with
  | none => none
  | some r =>
    let (neg, r1) :=
      match r with
      | '-' :: r' => if allowNeg then (true, r') else (false, r)
      | _ => (false, r)
    let (ip, icnt, r2) := parseDigits r1 0 0
    if icnt = 0 then none
    else if neg ∧ allowNeg = false then none
    else
      let (fp, fcnt) :=
        if allowFrac then
          match r2 with
          | '.' :: r3 =>
            let (fv, fc, _) := parseDigits r3 0 0
            if fc = 0 then (0, 0) else (fv, fc)
          | _ => (0, 0)
        else (0, 0)
      let m : Int := Int.ofNat (ip * 10 ^ fcnt + fp)
      some (JSNumber.make (if neg then -m else m) fcnt)

/-- `AIClient.recoverActionFromBrokenText` (ai.ts lines 544-573): regex
field extraction from broken text; requires a recognizable `action`
value.  The result is the `{ thought, action }` object it builds. -/
def recoverActionFromBrokenText (text : List Char) : Option JValue :=
  match scanFirst matchActionFieldAt text with
  | none => none
  | some actionTypeRaw =>
    let actionType := strToLower actionTypeRaw
    let addNum := fun (fs : List (String × JValue)) (name : String)
        (q : Option JSNumber) =>
      match q with
      | none => fs
      | some q => fs ++ [(name, JValue.jnum q)]
    let addStr := fun (fs : List (String × JValue)) (name : String)
        (s : Option String) =>
      match s with
      | none => fs
      | some s => fs ++ [(name, JValue.jstr s)]
    let fs : List (String × JValue) := [("action", .jstr actionType)]
    let fs := addNum fs "x" (scanFirst (matchNumFieldAt "x" true true) text)
    let fs := addNum fs "y" (scanFirst (matchNumFieldAt "y" true true) text)
    let fs := addNum fs "end_x" (scanFirst (matchNumFieldAt "end_x" true true) text)
    let fs := addNum fs "end_y" (scanFirst (matchNumFieldAt "end_y" true true) text)
    let fs := addNum fs "duration" (scanFirst (matchNumFieldAt "duration" false false) text)
    let fs := addNum fs "hold_seconds" (scanFirst (matchNumFieldAt "hold_seconds" true true) text)
    let fs := addNum fs "scroll_amount" (scanFirst (matchNumFieldAt "scroll_amount" true false) text)
    let fs := addStr fs "text" (scanFirst (matchQuotedFieldAt "text") text)
    let thought := (scanFirst (matchQuotedFieldAt "thought") text).getD ""
    some (.jobj [("thought", .jstr thought), ("action", .jobj fs)])

/-- `AIClient.parseResponseJson` (ai.ts lines 414-452): try the three
candidates in order against `JSON.parse`, fall back to field-level
recovery, otherwise fail with the malformed-JSON error. -/
def parseResponseJsonL (content : List Char) : Except String JValue :=
  let trimmed := trimL content
  let withoutFence := stripFenceL trimmed
  let candidates := [withoutFence]
    ++ (match sliceBraces withoutFence with | some c => [c] | none => [])
    ++ (match extractFirstBalancedJsonObject withoutFence with
        | some c => [c] | none => [])
  match candidates.findSome? jsonParseL with
  | some v => .ok v
  | none =>
    match recoverActionFromBrokenText trimmed with
    | some v => .ok v
    | none => .error ("Invalid JSON response: " ++ String.mk (trimmed.take 200))

/-- The pipeline of `AIClient.analyzeScreenshot` from raw completion text
to the normalized action (ai.ts lines 180-181): `parseResponseJson`
followed by `fixActionFormat` on the response's `action` member. -/
def recoverAction (content : String) : Except String FixedAction :=
  match parseResponseJsonL content.data with
  | .ok v => .ok (fixActionFormat (jsField v "action"))
  | .error e => .error e

/-! ## Inference Request Orchestrator (`AIClient`) -/

/-- `ModelPoolEntry` (ai.ts lines 3-10). -/
structure ModelPoolEntry where
  entryId : String
  providerId : String
  providerName : String
  baseURL : String
  model : String
  apiKey : String
deriving Repr, DecidableEq

instance : Inhabited ModelPoolEntry := ⟨⟨"", "", "", "", "", ""⟩⟩

/-- `poolCursorByTarget` — a `Map<string, number>`. -/
def CursorMap := List (String × Nat)

/-- `this.poolCursorByTarget.get(key) || 0`. -/
def getCursor (m : CursorMap) (key : String) : Nat :=
  match List.lookup key m with
  | some v => v
  | none => 0

/-- `this.poolCursorByTarget.set(key, v)`. -/
def setCursor (m : CursorMap) (key : String) (v : Nat) : CursorMap :=
  (key, v) :: (List.filter (fun p => p.1 ≠ key) m)

/-- `AIClient.getPoolForTarget` (ai.ts lines 316-320). -/
def getPoolForTarget (modelPool : List ModelPoolEntry) (target : String) :
    List ModelPoolEntry :=
  let t := if target = "" then "all" else target
  if t = "all" then modelPool
  else modelPool.filter (fun e => e.providerId ++ "::" ++ e.model == t)

/-- `String(target || 'all')`. -/
def targetKeyOf (target : String) : String :=
  if target = "" then "all" else target

/-- `AIClient.getNextPoolEntry` (ai.ts lines 322-328): read the target's
cursor (default 0), select `pool[cursor % pool.length]`, store
`(cursor + 1) % pool.length` back. -/
def getNextPoolEntry (pool : List ModelPoolEntry) (target : String)
    (m : CursorMap) : ModelPoolEntry × CursorMap :=
  let key := targetKeyOf target
  let cursor := getCursor m key
  let next := (pool.get? (cursor % pool.length)).getD default
  (next, setCursor m key ((cursor + 1) % pool.length))

/-- The entries handed out by `k` successive `getNextPoolEntry` calls. -/
def nextEntryCalls (pool : List ModelPoolEntry) (target : String) :
    CursorMap → Nat → List ModelPoolEntry × CursorMap
  | m, 0 => ([], m)
  | m, k + 1 =>
    let (e, m') := getNextPoolEntry pool target m
    let (rest, m'') := nextEntryCalls pool target m' k
    (e :: rest, m'')

/-- `AIClient.isApiKeyError` (ai.ts lines 575-591). -/
def isApiKeyError (errorMessage : String) : Bool :=
  let lowerError := strToLower errorMessage
  ["401", "unauthorized", "invalid api key", "api key invalid",
   "authentication", "auth", "quota", "rate limit", "insufficient_quota",
   "billing"].any (fun pattern => strContains lowerError pattern)

/-- `AIClient.isJsonParseError` (ai.ts lines 593-601). -/
def isJsonParseError (errorMessage : String) : Bool :=
  let msg := strToLower errorMessage
  strContains msg "json" || strContains msg "unterminated string" ||
    strContains msg "unexpected token" || strContains msg "invalid json"

/-- `AIClient.isActionFormatError` (ai.ts lines 614-616). -/
def isActionFormatError (errorMessage : String) : Bool :=
  strContains (strToLower errorMessage) "action_format_error"

/-- `AIClient.isAbortError` (ai.ts lines 618-626). -/
def isAbortError (errorMessage : String) : Bool :=
  let m := strToLower errorMessage
  strContains m "aborted" || strContains m "aborterror" ||
    strContains m "task_aborted" || strContains m "request aborted"

/-- `API_KEY_POOL_EXHAUSTED` message (ai.ts lines 211-213). -/
def poolExhaustedMsg (targetKey : String) : String :=
  "API_KEY_POOL_EXHAUSTED: 当前模型池(" ++ targetKey ++ ")连续 3 轮全部触发限额/鉴权错误"

/-- The outcome of one `try` block of the attempt loop: either a valid
`AIResponse` (parse and validation included) or the thrown error's
message. -/
inductive AttemptOutcome where
  | ok (thought : String) (action : FixedAction)
  | err (msg : String)

/-- How one logical `analyzeScreenshot` call ends. -/
inductive AnalyzeResult where
  | success (thought : String) (action : FixedAction)
  | thrown (msg : String)
  | fellThrough (lastError : Option String)
deriving Repr

/-- Observable trace of the attempt loop: final result, the entry id used
by each dispatched attempt, and the backoff waits performed (ms). -/
structure AnalyzeTrace where
  result : AnalyzeResult
  attemptEntries : List String
  waits : List Nat
  cursors : CursorMap

/-- The retry loop of `AIClient.analyzeScreenshot` (ai.ts lines 130-254),
one step per remaining attempt.  `outcomes attempt` is what the `try`
block does on that attempt (the `formatErrorFeedback` prompt suffix only
changes the request content, so it is absorbed into `outcomes`);
`shouldAbort attempt` is the cancellation predicate sampled during the
attempt.  State mirrors the source: current entry, per-request failure
set (`apiErrorEntriesThisRequest`), round counter and `lastError`.  The
loop `for (attempt = 0; attempt < maxRetries; attempt++)` is driven by a
structural fuel argument with `fuel = maxRetries - attempt`; exhausted
fuel is the loop falling through to `throw lastError`. -/
def attemptLoopGo (pool : List ModelPoolEntry) (targetKey : String)
    (maxRetries : Nat) (outcomes : Nat → AttemptOutcome)
    (shouldAbort : Nat → Bool) :
    Nat → Nat → ModelPoolEntry → CursorMap → List String → Nat →
    Option String → List String → List Nat → AnalyzeTrace
  | 0, _, _, cursors, _, _, lastError, entriesAcc, waitsAcc =>
    ⟨.fellThrough lastError, entriesAcc.reverse, waitsAcc.reverse, cursors⟩
  | fuel + 1, attempt, currentEntry, cursors, failedSet, round, _lastError,
      entriesAcc, waitsAcc =>
    if shouldAbort attempt then
      ⟨.thrown "TASK_ABORTED", entriesAcc.reverse, waitsAcc.reverse, cursors⟩
    else
      let entriesAcc := currentEntry.entryId :: entriesAcc
      match outcomes attempt with
      | .ok thought action =>
        ⟨.success thought action, entriesAcc.reverse, waitsAcc.reverse, cursors⟩
      | .err msg =>
        if isAbortError msg then
          ⟨.thrown "TASK_ABORTED", entriesAcc.reverse, waitsAcc.reverse, cursors⟩
        else if isApiKeyError msg then
          let failedSet :=
            if currentEntry.entryId ∈ failedSet then failedSet
            else failedSet ++ [currentEntry.entryId]
          if failedSet.length ≥ pool.length then
            let round := round + 1
            if round ≥ 3 then
              ⟨.thrown (poolExhaustedMsg targetKey), entriesAcc.reverse,
                waitsAcc.reverse, cursors⟩
            else
              let waitMs := ([5000, 10000].get? (round - 1)).getD 10000
              let (nextEntry, cursors') := getNextPoolEntry pool targetKey cursors
              attemptLoopGo pool targetKey maxRetries outcomes shouldAbort
                fuel (attempt + 1) nextEntry cursors' [] round (some msg)
                entriesAcc (waitMs :: waitsAcc)
          else
            let (nextEntry, cursors') := getNextPoolEntry pool targetKey cursors
            attemptLoopGo pool targetKey maxRetries outcomes shouldAbort
              fuel (attempt + 1) nextEntry cursors' failedSet round (some msg)
              entriesAcc waitsAcc
        else if isJsonParseError msg then
          if attempt < maxRetries - 1 then
            attemptLoopGo pool targetKey maxRetries outcomes shouldAbort
              fuel (attempt + 1) currentEntry cursors failedSet round (some msg)
              entriesAcc waitsAcc
          else
            ⟨.fellThrough (some msg), entriesAcc.reverse, waitsAcc.reverse, cursors⟩
        else if isActionFormatError msg then
          if attempt < maxRetries - 1 then
            attemptLoopGo pool targetKey maxRetries outcomes shouldAbort
              fuel (attempt + 1) currentEntry cursors failedSet round (some msg)
              entriesAcc waitsAcc
          else
            ⟨.fellThrough (some msg), entriesAcc.reverse, waitsAcc.reverse, cursors⟩
        else
          ⟨.thrown msg, entriesAcc.reverse, waitsAcc.reverse, cursors⟩

/-- The attempt-loop portion of `AIClient.analyzeScreenshot` (ai.ts lines
124-254): target-pool selection, `maxRetries = max(6, poolSize*3)`, the
initial `getNextPoolEntry`, then the loop. -/
def analyzeScreenshotLoop (modelPool : List ModelPoolEntry)
    (modelTarget : String) (cursors : CursorMap)
    (outcomes : Nat → AttemptOutcome) (shouldAbort : Nat → Bool) :
    AnalyzeTrace :=
  let targetKey := if modelTarget = "" then "all" else modelTarget
  let targetPool := getPoolForTarget modelPool targetKey
  if targetPool.length = 0 then
    ⟨.thrown ("没有可用的模型池: " ++ targetKey), [], [], cursors⟩
  else
    let maxRetries := max 6 (targetPool.length * 3)
    let (firstEntry, cursors') := getNextPoolEntry targetPool targetKey cursors
    attemptLoopGo targetPool targetKey maxRetries outcomes shouldAbort
      maxRetries 0 firstEntry cursors' [] 0 none [] []

/-! ## Agent Control Loop (agent.ts) -/

/-- The per-run mutable fields of `Agent` (agent.ts lines 35-41).  The
`isRunning` flag is omitted: it only changes at suspension points via
`stop()`, so the run model below reads it through per-checkpoint samples
instead. -/
structure AgentState where
  previousActions : List FixedAction
  lastShellResult : Option String
  currentWorkDir : Option String
  repeatedActionWarning : String
  lastActionSignature : String
  consecutiveSameActionCount : Nat
deriving Repr

/-- The per-run reset at the top of `Agent.run` (agent.ts lines 57-62):
history, last shell result and all loop-detection state are cleared;
`currentWorkDir` is not touched. -/
def resetForRun (s : AgentState) : AgentState :=
  { s with
    previousActions := []
    lastShellResult := none
    repeatedActionWarning := ""
    lastActionSignature := ""
    consecutiveSameActionCount := 0 }

/-- Render a JS number field with `?? fallback` semantics
(`${action.x ?? 'na'}`-style interpolation). -/
def renderNumField (v : Option (Option JSNumber)) (fallback : String) : String :=
  match v with
  | none => fallback
  | some none => "NaN"
  | some (some q) => q.render

def actionTypeStr : ActionType → String
  | .click => "click"
  | .double_click => "double_click"
  | .right_click => "right_click"
  | .long_press => "long_press"
  | .type => "type"
  | .enter => "enter"
  | .press => "press"
  | .scroll => "scroll"
  | .drag => "drag"
  | .move => "move"
  | .wait => "wait"
  | .task_complete => "task_complete"
  | .shell => "shell"

/-- `Array.prototype.join('+')` over the raw `keys` array. -/
def joinPlus : List String → String
  | [] => ""
  | [s] => s
  | s :: rest => s ++ "+" ++ joinPlus rest

/-- `Number(v)` rendering used in signatures: NaN renders as `"NaN"`. -/
def renderNumOr (v : Option (Option JSNumber)) (fallback : JSNumber) : String :=
  match v with
  | none => fallback.render
  | some none => "NaN"
  | some (some q) => q.render

/-- `Agent.buildActionSignature` (agent.ts lines 295-324). -/
def buildActionSignature (a : FixedAction) : String :=
  let ty := actionTypeStr a.action
  match a.action with
  | .click | .double_click | .right_click | .move =>
    ty ++ ":" ++ renderNumField a.x "na" ++ "," ++ renderNumField a.y "na"
  | .long_press =>
    let hs : Option JSNumber :=
      match a.hold_seconds with
      | none => some (JSNumber.ofInt 1)
      | some v => v
    ty ++ ":" ++ renderNumField a.x "na" ++ "," ++ renderNumField a.y "na"
      ++ ":" ++ (match hs with | none => "NaN" | some q => q.toFixed2)
  | .drag =>
    ty ++ ":" ++ renderNumField a.x "na" ++ "," ++ renderNumField a.y "na"
      ++ "->" ++ renderNumField a.end_x "na" ++ "," ++ renderNumField a.end_y "na"
  | .type => ty ++ ":" ++ (a.text.getD "")
  | .press =>
    ty ++ ":" ++ (match a.keys with
      | some ks => joinPlus (jsToStringElems ks)
      | none => "")
  | .scroll => ty ++ ":" ++ renderNumOr a.scroll_amount (JSNumber.ofInt 0)
  | .wait => ty ++ ":" ++ renderNumOr a.duration (JSNumber.ofInt 1000)
  | .shell => ty ++ ":" ++ (a.command.getD "")
  | .enter | .task_complete => ty

/-- The warning text synthesized at repeat count ≥ 3 (agent.ts lines
282-285). -/
def repeatedWarningText (count : Nat) (signature : String) : String :=
  let brief :=
    if signature.data.length > 120
    then String.mk (signature.data.take 120) ++ "..." else signature
  "【系统提醒】你可能陷入了重复操作死循环：已连续 " ++ toString count ++
    " 次输出近似相同动作（" ++ brief ++ "）。" ++
    "下一步必须先基于当前截图验证上一步是否成功；如果未成功，请更换策略（换目标控件/先聚焦窗口/使用快捷键或其他路径），禁止继续原地重复同一动作。"

/-- `Agent.updateRepeatedActionWarning` (agent.ts lines 265-293). -/
def updateRepeatedActionWarning (s : AgentState) (a : FixedAction) : AgentState :=
  let signature := buildActionSignature a
  if signature = "" then
    { s with lastActionSignature := "", consecutiveSameActionCount := 0,
             repeatedActionWarning := "" }
  else
    let s :=
      if signature = s.lastActionSignature then
        { s with consecutiveSameActionCount := s.consecutiveSameActionCount + 1 }
      else
        { s with lastActionSignature := signature,
                 consecutiveSameActionCount := 1 }
    if s.consecutiveSameActionCount ≥ 3 then
      { s with repeatedActionWarning :=
          repeatedWarningText s.consecutiveSameActionCount signature }
    else
      { s with repeatedActionWarning := "" }

/-- The `cd`/`chdir` prefix regex `^(?:cd|chdir)\s+([^\s&;|]+)/i` (agent.ts
line 183): the capture is the maximal run of characters that are not
whitespace, `&`, `;` or `|` after the command word and its whitespace. -/
def cdMatch (command : String) : Option String :=
  let l := command.data
  let tryWord : List Char → Option (List Char) := fun w =>
    if startsWithCiL l w then
      let r := l.drop w.length
      let r' := r.dropWhile isWs
      if r'.length < r.length then  -- \s+ requires at least one
        let cap := r'.takeWhile (fun c =>
          !(isWs c) ∧ c ≠ '&' ∧ c ≠ ';' ∧ c ≠ '|')
        if cap.isEmpty then none else some cap
      else none
    else none
  match tryWord "cd".data with
  | some cap => some (String.mk cap)
  | none =>
    match tryWord "chdir".data with
    | some cap => some (String.mk cap)
    | none => none

/-- `newDir.replace(/['"]/g, '')`. -/
def stripQuotes (s : String) : String :=
  String.mk (s.data.filter (fun c => c ≠ '\'' ∧ c ≠ '"'))

/-- The working-directory tracking after a successful shell execution
(agent.ts lines 182-193), on the original pre-normalization command. -/
def updateWorkDirAfterShell (currentWorkDir : Option String)
    (command : String) : Option String :=
  match cdMatch command with
  | none => currentWorkDir
  | some cap =>
    let newDir := stripQuotes cap
    let cwdTruthy : Bool :=
      match currentWorkDir with
      | some c => !(c == "")
      | none => false
    if !pathIsAbsolute newDir && cwdTruthy then
      some (resolvePath (currentWorkDir.getD "") newDir)
    else if pathIsAbsolute newDir then some newDir
    else currentWorkDir

/-- The work-dir injection for shell actions (agent.ts lines 170-172):
`mappedAction.action === 'shell' && this.currentWorkDir &&
!mappedAction.work_dir`. -/
def injectWorkDir (a : FixedAction) (currentWorkDir : Option String) :
    FixedAction :=
  let cwdTruthy : Bool :=
    match currentWorkDir with
    | some c => !(c == "")
    | none => false
  let wdFalsy : Bool :=
    match a.work_dir with
    | some w => w == ""
    | none => true
  if (a.action == .shell) && cwdTruthy && wdFalsy then
    { a with work_dir := currentWorkDir }
  else a

/-- `Agent.mapActionCoordinates` (agent.ts lines 232-248); the external
`ScreenshotManager.mapCoordinates` collaborator is the `coordMap`
argument. -/
def mapActionCoordinates
    (coordMap : Option JSNumber → Option JSNumber →
      Option JSNumber × Option JSNumber)
    (a : FixedAction) : FixedAction :=
  let a1 :=
    match a.x, a.y with
    | some vx, some vy =>
      let m := coordMap vx vy
      { a with x := some m.1, y := some m.2 }
    | _, _ => a
  match a1.end_x, a1.end_y with
  | some vx, some vy =>
    let m := coordMap vx vy
    { a1 with end_x := some m.1, end_y := some m.2 }
  | _, _ => a1

/-- `status` of `AgentRunResult` (agent.ts lines 24-28). -/
inductive RunStatus where
  | completed | stopped | max_iterations | error
deriving Repr, DecidableEq

structure RunResult where
  status : RunStatus
  error : Option String
  iterations : Nat
deriving Repr, DecidableEq

/-- The user-facing pool-exhaustion message (agent.ts line 126). -/
def agentPoolExhaustedErrMsg : String :=
  "API 次数已用完（所有 Key 均触发限额/鉴权错误），请稍后重试或更换模型/Key"

/-- What one iteration's `analyzeScreenshot` call produces. -/
inductive InferOutcome where
  | ok (thought : String) (action : FixedAction)
  | err (msg : String)

/-- One iteration's external environment: the inference outcome, the
values of the `isRunning` flag at each of the iteration's cancellation
checks (`true` = still running), whether `executeAction` resolved, and
the formatted last shell result.  The flag only changes at suspension
points (§5 of the spec: single-threaded, `stop()` runs between awaits),
which is why per-checkpoint samples model it faithfully. -/
structure IterEnv where
  flagAtTop : Bool        -- agent.ts line 72
  infer : InferOutcome
  flagAtCatch : Bool      -- agent.ts line 119
  flagErrPreSleep : Bool  -- agent.ts line 131
  flagErrPostSleep : Bool -- agent.ts line 136
  flagAfterInfer : Bool   -- agent.ts line 143
  flagBeforeExec : Bool   -- agent.ts line 163
  execOk : Bool
  shellResultFmt : Option String

/-- The iteration loop of `Agent.run` (agent.ts lines 71-204), one `IterEnv`
per available iteration (the list length plays `max_iterations`).  Returns
the run result, the final agent state, and the list of actions dispatched
to the driver, in order. -/
def runLoopGo
    (coordMap : Option JSNumber → Option JSNumber →
      Option JSNumber × Option JSNumber) :
    List IterEnv → AgentState → Nat → List FixedAction →
    RunResult × AgentState × List FixedAction
  | [], s, iterations, executed =>
    (⟨.max_iterations, none, iterations⟩, s, executed.reverse)
  | env :: rest, s, iterations, executed =>
    if !env.flagAtTop then (⟨.stopped, none, iterations⟩, s, executed.reverse)
    else
      let iters := iterations + 1
      match env.infer with
      | .err msg =>
        if !env.flagAtCatch || strContains msg "TASK_ABORTED" then
          (⟨.stopped, none, iters⟩, s, executed.reverse)
        else if strContains msg "API_KEY_POOL_EXHAUSTED" then
          (⟨.error, some agentPoolExhaustedErrMsg, iters⟩, s, executed.reverse)
        else if !env.flagErrPreSleep then
          (⟨.stopped, none, iters⟩, s, executed.reverse)
        else if !env.flagErrPostSleep then
          (⟨.stopped, none, iters⟩, s, executed.reverse)
        else runLoopGo coordMap rest s iters executed
      | .ok _thought action =>
        if !env.flagAfterInfer then
          (⟨.stopped, none, iters⟩, s, executed.reverse)
        else if action.action == .task_complete then
          (⟨.completed, none, iters⟩, s, executed.reverse)
        else
          let s := updateRepeatedActionWarning s action
          let mapped := mapActionCoordinates coordMap action
          if !env.flagBeforeExec then
            (⟨.stopped, none, iters⟩, s, executed.reverse)
          else
            let mapped := injectWorkDir mapped s.currentWorkDir
            let executed := mapped :: executed
            let s :=
              if env.execOk then
                let s := { s with previousActions := s.previousActions ++ [action] }
                if action.action == .shell then
                  let s := { s with lastShellResult := env.shellResultFmt }
                  match action.command with
                  | some cmd =>
                    if cmd == "" then s
                    else { s with currentWorkDir :=
                            updateWorkDirAfterShell s.currentWorkDir cmd }
                  | none => s
                else s
              else s
            runLoopGo coordMap rest s iters executed

/-- `Agent.run` (agent.ts lines 49-212): per-run reset, then the iteration
loop. -/
def runAgent
    (coordMap : Option JSNumber → Option JSNumber →
      Option JSNumber × Option JSNumber)
    (envs : List IterEnv) (s0 : AgentState) :
    RunResult × AgentState × List FixedAction :=
  runLoopGo coordMap envs (resetForRun s0) 0 []

/-! ## Theorems -/

/-- C2: with a pool of 2 entries that fail with a 401-pattern error on
every attempt, the attempt loop marks each entry failed, completes round 1
(5s wait), round 2 (10s wait), and on round 3 throws the terminal
pool-exhaustion signal after exactly 6 attempts; the Control Loop maps
that signal to run status `error` with a message mentioning key/quota
(限额/鉴权) exhaustion. -/
theorem pool_exhaustion_two_entries_three_rounds
    (coordMap : Option JSNumber → Option JSNumber →
      Option JSNumber × Option JSNumber) :
    (analyzeScreenshotLoop
        [⟨"p::m::k1", "p", "P", "https://api", "m", "k1"⟩,
         ⟨"p::m::k2", "p", "P", "https://api", "m", "k2"⟩] "all" []
        (fun _ => .err "401 Unauthorized") (fun _ => false)).result
      = .thrown (poolExhaustedMsg "all")
    ∧ (analyzeScreenshotLoop
        [⟨"p::m::k1", "p", "P", "https://api", "m", "k1"⟩,
         ⟨"p::m::k2", "p", "P", "https://api", "m", "k2"⟩] "all" []
        (fun _ => .err "401 Unauthorized") (fun _ => false)).waits
      = [5000, 10000]
    ∧ (analyzeScreenshotLoop
        [⟨"p::m::k1", "p", "P", "https://api", "m", "k1"⟩,
         ⟨"p::m::k2", "p", "P", "https://api", "m", "k2"⟩] "all" []
        (fun _ => .err "401 Unauthorized") (fun _ => false)).attemptEntries
      = ["p::m::k1", "p::m::k2", "p::m::k1", "p::m::k2", "p::m::k1", "p::m::k2"]
    ∧ strContains (poolExhaustedMsg "all") "API_KEY_POOL_EXHAUSTED" = true
    ∧ (runLoopGo coordMap
        [⟨true, .err (poolExhaustedMsg "all"), true, true, true, true, true,
          true, none⟩]
        ⟨[], none, none, "", "", 0⟩ 0 []).1
      = ⟨.error, some agentPoolExhaustedErrMsg, 1⟩
    ∧ strContains agentPoolExhaustedErrMsg "限额/鉴权" = true := by
  exact ⟨rfl, rfl, rfl, rfl, rfl, rfl⟩

/-- C3 counterexample: in a pool of 2 entries, a first attempt that fails
with a JSON-parse-classified error retries with the *same* entry: the two
dispatched attempts both use entry `e1` while the cursor has advanced only
once.  This falsifies "every dispatched request attempt advances that
target's round-robin cursor by exactly one … every pool entry is visited
exactly once per full cycle before any entry repeats". -/
theorem json_retry_reuses_entry :
    (analyzeScreenshotLoop
        [⟨"e1", "p", "P", "u", "m", "k1"⟩, ⟨"e2", "p", "P", "u", "m", "k2"⟩]
        "all" []
        (fun i => if i = 0 then .err "Unexpected token d in JSON"
                  else .err "transport failure")
        (fun _ => false)).attemptEntries
      = ["e1", "e1"]
    ∧ getCursor (analyzeScreenshotLoop
        [⟨"e1", "p", "P", "u", "m", "k1"⟩, ⟨"e2", "p", "P", "u", "m", "k2"⟩]
        "all" []
        (fun i => if i = 0 then .err "Unexpected token d in JSON"
                  else .err "transport failure")
        (fun _ => false)).cursors "all" = 1 := by
  exact ⟨rfl, rfl⟩

lemma getCursor_setCursor_self (m : CursorMap) (k : String) (v : Nat) :
    getCursor (setCursor m k v) k = v := by
  simp [getCursor, setCursor, List.lookup]

lemma nextEntryCalls_entries (pool : List ModelPoolEntry) (target : String) :
    ∀ (k : Nat) (m : CursorMap),
      (nextEntryCalls pool target m k).1
        = (List.range k).map (fun i =>
            (pool.get? ((getCursor m (targetKeyOf target) + i) % pool.length)
              ).getD default) := by
  intro k
  induction k with
  | zero => intro m; rfl
  | succ n ih =>
    intro m
    have hstep : (nextEntryCalls pool target m (n + 1)).1
        = (pool.get? (getCursor m (targetKeyOf target) % pool.length)).getD default
          :: (nextEntryCalls pool target
              (setCursor m (targetKeyOf target)
                ((getCursor m (targetKeyOf target) + 1) % pool.length)) n).1 := by
      rfl
    rw [hstep, ih, List.range_succ_eq_map, List.map_cons, List.map_map]
    refine congrArg₂ List.cons (by simp) ?_
    apply List.map_congr_left
    intro i _
    simp only [Function.comp_apply, getCursor_setCursor_self, Nat.mod_add_mod]
    have harith : getCursor m (targetKeyOf target) + 1 + i
        = getCursor m (targetKeyOf target) + Nat.succ i := by omega
    rw [harith]

/-- C3 (amended): each *call* to `getNextPoolEntry` advances the target's
cursor by exactly one modulo the pool size, and `poolSize` successive
calls hand out the entries at indices `(c₀+i) % poolSize`, which are
pairwise distinct and cover every index — one full fair cycle.  (In the
attempt loop itself, however, only key/quota-classified failures rotate;
JSON-parse and format-error retries reuse the current entry, per the C3
counterexample.) -/
theorem getNextPoolEntry_round_robin (pool : List ModelPoolEntry)
    (target : String) (m : CursorMap) (h : pool ≠ []) :
    (getCursor (getNextPoolEntry pool target m).2 (targetKeyOf target)
      = (getCursor m (targetKeyOf target) + 1) % pool.length)
    ∧ (nextEntryCalls pool target m pool.length).1
      = (List.range pool.length).map (fun i =>
          (pool.get? ((getCursor m (targetKeyOf target) + i) % pool.length)
            ).getD default)
    ∧ ((List.range pool.length).map (fun i =>
        (getCursor m (targetKeyOf target) + i) % pool.length)).Nodup
    ∧ (∀ j, j < pool.length →
        j ∈ (List.range pool.length).map (fun i =>
          (getCursor m (targetKeyOf target) + i) % pool.length)) := by
  have hn : 0 < pool.length := List.length_pos.mpr h
  refine ⟨getCursor_setCursor_self m (targetKeyOf target) _,
    nextEntryCalls_entries pool target pool.length m, ?_, ?_⟩
  · apply List.Nodup.map_on
    · intro i1 h1 i2 h2 heq
      rw [List.mem_range] at h1 h2
      have hmod : i1 % pool.length = i2 % pool.length :=
        Nat.ModEq.add_left_cancel' (getCursor m (targetKeyOf target)) heq
      rwa [Nat.mod_eq_of_lt h1, Nat.mod_eq_of_lt h2] at hmod
    · exact List.nodup_range _
  · intro j hj
    rw [List.mem_map]
    refine ⟨(j + pool.length - getCursor m (targetKeyOf target) % pool.length)
        % pool.length, List.mem_range.mpr (Nat.mod_lt _ hn), ?_⟩
    have hcr : getCursor m (targetKeyOf target) % pool.length < pool.length :=
      Nat.mod_lt _ hn
    calc (getCursor m (targetKeyOf target) +
            (j + pool.length - getCursor m (targetKeyOf target) % pool.length)
              % pool.length) % pool.length
        = (getCursor m (targetKeyOf target) +
            (j + pool.length - getCursor m (targetKeyOf target) % pool.length))
              % pool.length := Nat.add_mod_mod _ _ _
      _ = (getCursor m (targetKeyOf target) % pool.length +
            (j + pool.length - getCursor m (targetKeyOf target) % pool.length))
              % pool.length := by rw [Nat.mod_add_mod]
      _ = (j + pool.length) % pool.length := by
            congr 1
            omega
      _ = j % pool.length := by rw [Nat.add_mod_right]
      _ = j := Nat.mod_eq_of_lt hj

/-- C3 witness: a 2-entry pool cycled once from a fresh cursor map hands
out both entries. -/
theorem getNextPoolEntry_round_robin_witness :
    ([(⟨"a", "p", "P", "u", "m1", "k"⟩ : ModelPoolEntry),
      ⟨"b", "p", "P", "u", "m2", "k"⟩] ≠ ([] : List ModelPoolEntry))
    ∧ (nextEntryCalls
        [(⟨"a", "p", "P", "u", "m1", "k"⟩ : ModelPoolEntry),
         ⟨"b", "p", "P", "u", "m2", "k"⟩] "all" [] 2).1
      = [⟨"a", "p", "P", "u", "m1", "k"⟩, ⟨"b", "p", "P", "u", "m2", "k"⟩] := by
  refine ⟨by decide, ?_⟩
  have h := (getNextPoolEntry_round_robin
    [(⟨"a", "p", "P", "u", "m1", "k"⟩ : ModelPoolEntry),
     ⟨"b", "p", "P", "u", "m2", "k"⟩] "all" [] (by decide)).2.1
  calc (nextEntryCalls
        [(⟨"a", "p", "P", "u", "m1", "k"⟩ : ModelPoolEntry),
         ⟨"b", "p", "P", "u", "m2", "k"⟩] "all" [] 2).1
      = (nextEntryCalls
        [(⟨"a", "p", "P", "u", "m1", "k"⟩ : ModelPoolEntry),
         ⟨"b", "p", "P", "u", "m2", "k"⟩] "all" []
        ([(⟨"a", "p", "P", "u", "m1", "k"⟩ : ModelPoolEntry),
          ⟨"b", "p", "P", "u", "m2", "k"⟩].length)).1 := rfl
    _ = _ := h
    _ = [⟨"a", "p", "P", "u", "m1", "k"⟩, ⟨"b", "p", "P", "u", "m2", "k"⟩] := rfl

/-- C4: every positive cancellation check in an iteration short-circuits
to status `stopped` without dispatching the iteration's action: at the
loop top, when the inference call throws the abort signal, at the
post-inference check, and at the pre-execution check (where only the
loop-detector state has advanced); the dispatched-action trace is exactly
what previous iterations executed. -/
theorem cancellation_short_circuits
    (coordMap : Option JSNumber → Option JSNumber →
      Option JSNumber × Option JSNumber)
    (env : IterEnv) (rest : List IterEnv) (s : AgentState)
    (iterations : Nat) (executed : List FixedAction) :
    (env.flagAtTop = false →
      runLoopGo coordMap (env :: rest) s iterations executed
        = (⟨.stopped, none, iterations⟩, s, executed.reverse))
    ∧ (∀ m, env.flagAtTop = true → env.infer = .err m →
        strContains m "TASK_ABORTED" = true →
        runLoopGo coordMap (env :: rest) s iterations executed
          = (⟨.stopped, none, iterations + 1⟩, s, executed.reverse))
    ∧ (∀ m, env.flagAtTop = true → env.flagAtCatch = false →
        env.infer = .err m →
        runLoopGo coordMap (env :: rest) s iterations executed
          = (⟨.stopped, none, iterations + 1⟩, s, executed.reverse))
    ∧ (∀ t a, env.flagAtTop = true → env.infer = .ok t a →
        env.flagAfterInfer = false →
        runLoopGo coordMap (env :: rest) s iterations executed
          = (⟨.stopped, none, iterations + 1⟩, s, executed.reverse))
    ∧ (∀ t a, env.flagAtTop = true → env.infer = .ok t a →
        env.flagAfterInfer = true → a.action ≠ .task_complete →
        env.flagBeforeExec = false →
        runLoopGo coordMap (env :: rest) s iterations executed
          = (⟨.stopped, none, iterations + 1⟩,
             updateRepeatedActionWarning s a, executed.reverse)) := by
  refine ⟨?_, ?_, ?_, ?_, ?_⟩
  · intro h
    simp [runLoopGo, h]
  · intro m h1 h2 h3
    simp [runLoopGo, h1, h2, h3]
  · intro m h1 h2 h3
    simp [runLoopGo, h1, h2, h3]
  · intro t a h1 h2 h3
    simp [runLoopGo, h1, h2, h3]
  · intro t a h1 h2 h3 h4 h5
    simp [runLoopGo, h1, h2, h3, h4, h5]

/-- C4 witness: a cancellation observed at the post-inference check stops
the run with no action dispatched. -/
theorem cancellation_short_circuits_witness :
    (⟨true, .ok "t" ({ action := .click } : FixedAction), true, true, true,
        false, false, true, none⟩ : IterEnv).flagAfterInfer = false
    ∧ runLoopGo (fun x y => (x, y))
        [⟨true, .ok "t" ({ action := .click } : FixedAction), true, true, true,
          false, false, true, none⟩]
        ⟨[], none, none, "", "", 0⟩ 0 []
      = (⟨.stopped, none, 1⟩, ⟨[], none, none, "", "", 0⟩, []) := by
  refine ⟨rfl, ?_⟩
  exact (cancellation_short_circuits (fun x y => (x, y))
    ⟨true, .ok "t" ({ action := .click } : FixedAction), true, true, true,
      false, false, true, none⟩
    [] ⟨[], none, none, "", "", 0⟩ 0 []).2.2.2.1 "t" { action := .click }
    rfl rfl rfl

/-- C7: a parsed action that normalizes to `shell` whose `command` is
missing, or is a string that trims to empty, is downgraded by
`fixActionFormat` to a 1000ms `wait`, which then passes validation — no
error is raised. -/
theorem shell_missing_command_downgrades (v : JValue)
    (hshell : normalizeActionType (jsField v "action") = .shell)
    (hcmd : jsField v "command" = none
            ∨ ∃ s, jsField v "command" = some (.jstr s) ∧ strTrim s = "") :
    fixActionFormat (some v) = waitDefaultAction
    ∧ validateActionOrThrow (fixActionFormat (some v)) = .ok () := by
  have hfix : fixActionFormat (some v) = waitDefaultAction := by
    have hcond : jsTruthyOpt (jsField v "command") = false
        ∨ strTrim (jsToString ((jsField v "command").getD .jnull)) = "" := by
      rcases hcmd with h | ⟨s, hs, hts⟩
      · left; rw [h]; rfl
      · right; rw [hs]; exact hts
    unfold fixActionFormat
    by_cases ht : jsTruthyOpt (some v) = false
    · rw [ht]; rfl
    · rw [Bool.not_eq_false] at ht
      rw [ht]
      simp only [Bool.true_eq_false, if_false]
      rw [if_pos ⟨hshell, hcond⟩]
  exact ⟨hfix, by rw [hfix]; rfl⟩

/-- C7 witness: the concrete shell action with a whitespace-only command. -/
theorem shell_missing_command_downgrades_witness :
    normalizeActionType
        (jsField (.jobj [("action", .jstr "shell"), ("command", .jstr " ")])
          "action") = .shell
    ∧ fixActionFormat
        (some (.jobj [("action", .jstr "shell"), ("command", .jstr " ")]))
      = waitDefaultAction := by
  refine ⟨rfl, ?_⟩
  exact (shell_missing_command_downgrades
    (.jobj [("action", .jstr "shell"), ("command", .jstr " ")])
    rfl (Or.inr ⟨" ", rfl, rfl⟩)).1

/-- C1 counterexample: with the single allowed root `/home/user/app`, the
gate accepts the working directory `/home/user/app2` — a *sibling* whose
name merely extends the root — although it is neither equal to nor a
descendant of any allowed root.  The claim that every such request is
rejected before execution is therefore false of the code: the check is a
raw string-prefix test, not a path-descendant test. -/
theorem validateWorkDir_sibling_accepted :
    validateWorkDir ["/home/user/app"] "/cwd" (some "/home/user/app2")
      = .ok "/home/user/app2"
    ∧ isDescendantOrEqual "/home/user/app2" "/home/user/app" = false := by
  constructor <;> rfl

/-- C1 (amended): when no working directory is given the process cwd is
used unchecked; a given working directory is resolved to an absolute path
and the request is rejected before the runner is ever consulted unless the
allowed-root list is empty or some allowed root's resolution is a string
prefix of the resolved path (which admits every descendant-or-equal path
but also sibling paths whose last component extends a root's). -/
theorem validateWorkDir_string_prefix_gate (allowed : List String)
    (cwd wd : String) (hwd : wd ≠ "") :
    validateWorkDir allowed cwd none = .ok cwd
    ∧ (validateWorkDir allowed cwd (some wd) = .ok (resolvePath cwd wd)
        ↔ allowed = [] ∨ ∃ d ∈ allowed,
            strStartsWith (resolvePath cwd wd) (resolvePath cwd d) = true)
    ∧ (∀ e blockedCmds regexTest runner,
        isBlocked blockedCmds regexTest wd = false →
        validateWorkDir allowed cwd (some wd) = .error e →
        shellExecuteGate allowed blockedCmds regexTest cwd runner wd (some wd)
          = .error e) := by
  refine ⟨rfl, ?_, ?_⟩
  · simp only [validateWorkDir, if_neg hwd]
    by_cases hA : allowed.any (fun dir =>
        strStartsWith (resolvePath cwd wd) (resolvePath cwd dir)) = true
    · rw [hA]
      simp only [List.any_eq_true] at hA
      obtain ⟨d, hd, hsw⟩ := hA
      simp only [Bool.not_true, Bool.false_and, Bool.false_eq_true, if_false,
        true_iff]
      exact Or.inr ⟨d, hd, hsw⟩
    · rw [Bool.not_eq_true] at hA
      rw [hA]
      rcases eq_or_ne allowed [] with hnil | hne
      · subst hnil
        simp
      · have hlen : 0 < allowed.length := List.length_pos.mpr hne
        have hnex : ¬ ∃ d ∈ allowed,
            strStartsWith (resolvePath cwd wd) (resolvePath cwd d) = true := by
          rw [List.any_eq_false] at hA
          rintro ⟨d, hd, hsw⟩
          exact (hA d hd) hsw
        simp [hlen, hne, hnex]
  · intro e blockedCmds regexTest runner hnb hv
    unfold shellExecuteGate
    simp [hnb, hv]

/-- C1 witness: the amended gate theorem applied to a concrete allowed
root, cwd and descendant working directory. -/
theorem validateWorkDir_string_prefix_gate_witness :
    ("/data/sub" : String) ≠ ""
    ∧ validateWorkDir ["/data"] "/cwd" (some "/data/sub")
      = .ok (resolvePath "/cwd" "/data/sub") := by
  refine ⟨by decide, ?_⟩
  exact ((validateWorkDir_string_prefix_gate ["/data"] "/cwd" "/data/sub"
    (by decide)).2.1).mpr (Or.inr ⟨"/data", by simp, by decide⟩)

/-- C6: post-normalization validation succeeds exactly when every field
the spec requires for the action's kind is present and valid, and every
failure is an action-format error naming precisely the first offending
field — never a generic error. -/
theorem validate_names_offending_field (a : FixedAction) :
    (validateActionOrThrow a = .ok () ↔ specFirstInvalidField a = none)
    ∧ (∀ f, specFirstInvalidField a = some f →
        validateActionOrThrow a = .error (actionFormatErrorMsg f))
    ∧ (∀ e, validateActionOrThrow a = .error e →
        ∃ f, specFirstInvalidField a = some f ∧ e = actionFormatErrorMsg f) := by
  have key : validateActionOrThrow a
      = (match specFirstInvalidField a with
         | none => .ok ()
         | some f => .error (actionFormatErrorMsg f)) := by
    unfold validateActionOrThrow specFirstInvalidField
    cases a.action <;> dsimp only <;> (repeat' split) <;> simp_all
  refine ⟨?_, ?_, ?_⟩
  · rw [key]
    cases h : specFirstInvalidField a <;> simp
  · intro f hf
    rw [key, hf]
  · intro e he
    rw [key] at he
    cases h : specFirstInvalidField a with
    | none => rw [h] at he; exact absurd he (by simp)
    | some f =>
      rw [h] at he
      exact ⟨f, rfl, by injection he with h'; exact h'.symm⟩

/-- C6 witness: a click with no coordinates fails validation naming `x`. -/
theorem validate_names_offending_field_witness :
    specFirstInvalidField ({ action := .click } : FixedAction) = some "x"
    ∧ validateActionOrThrow ({ action := .click } : FixedAction)
      = .error (actionFormatErrorMsg "x") := by
  refine ⟨rfl, ?_⟩
  exact (validate_names_offending_field { action := .click }).2.1 "x" rfl

lemma dropWhile_head_not_ws {l : List Char} {c : Char}
    (hc : l.head? = some c) (h : isWs c = false) : l.dropWhile isWs = l := by
  cases l with
  | nil => simp at hc
  | cons a rest =>
    simp only [List.head?_cons, Option.some.injEq] at hc
    subst hc
    simp [List.dropWhile_cons, h]

lemma rtrim_getLast_not_ws {l : List Char} {c : Char}
    (hc : l.getLast? = some c) (h : isWs c = false) : rtrimL l = l := by
  have hr : l.reverse.head? = some c := by rw [List.head?_reverse]; exact hc
  unfold rtrimL
  rw [dropWhile_head_not_ws hr h, List.reverse_reverse]

lemma trim_id_of_ends {l : List Char} {a b : Char}
    (ha : l.head? = some a) (hwa : isWs a = false)
    (hb : l.getLast? = some b) (hwb : isWs b = false) : trimL l = l := by
  unfold trimL ltrimL
  rw [dropWhile_head_not_ws ha hwa]
  exact rtrim_getLast_not_ws hb hwb

lemma exists_concat_of_getLast? {l : List Char} {c : Char}
    (h : l.getLast? = some c) : ∃ t, l = t ++ [c] := by
  have hr : l.reverse.head? = some c := by rw [List.head?_reverse]; exact h
  cases hrev : l.reverse with
  | nil => rw [hrev] at hr; simp at hr
  | cons a t =>
    rw [hrev] at hr
    simp only [List.head?_cons, Option.some.injEq] at hr
    subst hr
    refine ⟨t.reverse, ?_⟩
    rw [← List.reverse_reverse l, hrev]
    simp

lemma rtrim_append_newline {l : List Char} {c : Char}
    (hc : l.getLast? = some c) (h : isWs c = false) :
    rtrimL (l ++ ['\n']) = l := by
  unfold rtrimL
  rw [List.reverse_append]
  have h1 : (['\n'] : List Char).reverse = ['\n'] := rfl
  rw [h1]
  have h2 : List.dropWhile isWs ('\n' :: l.reverse) = List.dropWhile isWs l.reverse := by
    rw [List.dropWhile_cons]
    simp only [show isWs '\n' = true from by decide, if_true]
  rw [List.cons_append]
  have h3 : ('\n' :: ([] ++ l.reverse)) = '\n' :: l.reverse := by simp
  rw [h3, h2]
  have hr : l.reverse.head? = some c := by rw [List.head?_reverse]; exact hc
  rw [dropWhile_head_not_ws hr h, List.reverse_reverse]

lemma stripFence_bare {sd t : List Char}
    (hs : sd = '{' :: t) (hlast : sd.getLast? = some '}') :
    trimL sd = sd ∧ stripFenceL sd = sd := by
  have hhead : sd.head? = some '{' := by rw [hs]; rfl
  have htrim : trimL sd = sd :=
    trim_id_of_ends hhead (by decide) hlast (by decide)
  refine ⟨htrim, ?_⟩
  obtain ⟨u, hu⟩ := exists_concat_of_getLast? hlast
  have h1 : startsWithCiL sd "```json".data = false := by rw [hs]; rfl
  have h2 : startsWithCiL sd "```".data = false := by rw [hs]; rfl
  have h3 : endsWithL sd "```".data = false := by
    rw [hu]
    unfold endsWithL
    rw [List.reverse_append]
    rfl
  simp only [stripFenceL, h1, h2, h3, Bool.false_eq_true, if_false]
  exact htrim

lemma stripFence_wrapped {sd t : List Char}
    (hs : sd = '{' :: t) (hlast : sd.getLast? = some '}') :
    trimL ("```json\n".data ++ (sd ++ "\n```".data))
      = "```json\n".data ++ (sd ++ "\n```".data)
    ∧ stripFenceL ("```json\n".data ++ (sd ++ "\n```".data)) = sd := by
  have hhead : sd.head? = some '{' := by rw [hs]; rfl
  have htrim : trimL sd = sd :=
    trim_id_of_ends hhead (by decide) hlast (by decide)
  constructor
  · apply trim_id_of_ends (a := '`') (b := '`')
    · rfl
    · decide
    · rw [show ("```json\n".data ++ (sd ++ "\n```".data))
          = ("```json\n".data ++ (sd ++ ['\n', '`', '`'])) ++ ['`'] by simp]
      rw [List.getLast?_concat]
    · decide
  · have h1 : startsWithCiL ("```json\n".data ++ (sd ++ "\n```".data))
        "```json".data = true := rfl
    have hdrop : ("```json\n".data ++ (sd ++ "\n```".data)).drop 7
        = '\n' :: (sd ++ "\n```".data) := rfl
    have h4 : ltrimL ('\n' :: (sd ++ "\n```".data)) = sd ++ "\n```".data := by
      unfold ltrimL
      rw [List.dropWhile_cons]
      simp only [show isWs '\n' = true from by decide, if_true]
      apply dropWhile_head_not_ws (c := '{')
      · rw [hs]; rfl
      · decide
    have h2 : startsWithCiL (sd ++ "\n```".data) "```".data = false := by
      rw [hs]; rfl
    have h5 : endsWithL (sd ++ "\n```".data) "```".data = true := by
      unfold endsWithL
      rw [List.reverse_append]
      rfl
    have h6 : dropLastN (sd ++ "\n```".data) 3 = sd ++ ['\n'] := by
      unfold dropLastN
      rw [show sd ++ "\n```".data = (sd ++ ['\n']) ++ ['`', '`', '`'] by simp]
      rw [show ((sd ++ ['\n']) ++ ['`', '`', '`']).length - 3
          = (sd ++ ['\n']).length by simp [List.length_append]]
      exact List.take_left _ _
    have h7 : rtrimL (sd ++ ['\n']) = sd :=
      rtrim_append_newline hlast (by decide)
    simp only [stripFenceL, h1, if_true, hdrop, h4, h2, Bool.false_eq_true,
      if_false, h5, h6, h7]
    exact htrim

lemma prose_parts {sd t p : List Char} {d : Char}
    (hs : sd = '{' :: t) (hlast : sd.getLast? = some '}')
    (hpd : p.getLast? = some d) (hdws : isWs d = false)
    (hpchars : ∀ c ∈ p, c ≠ '{' ∧ c ≠ '}' ∧ c ≠ '`') :
    trimL (sd ++ p) = sd ++ p
    ∧ stripFenceL (sd ++ p) = sd ++ p
    ∧ sliceBraces (sd ++ p) = some sd := by
  obtain ⟨w, hw⟩ := exists_concat_of_getLast? hpd
  obtain ⟨u, hu⟩ := exists_concat_of_getLast? hlast
  have hdmem : d ∈ p := by rw [hw]; simp
  have hd_tick : d ≠ '`' := (hpchars d hdmem).2.2
  have hhead : (sd ++ p).head? = some '{' := by rw [hs]; rfl
  have hlastsp : (sd ++ p).getLast? = some d := by
    rw [hw, show sd ++ (w ++ [d]) = (sd ++ w) ++ [d] by simp,
      List.getLast?_concat]
  have htrim : trimL (sd ++ p) = sd ++ p :=
    trim_id_of_ends hhead (by decide) hlastsp hdws
  have ht_ne : t ≠ [] := by
    intro h
    rw [h] at hs
    rw [hs] at hlast
    exact absurd hlast (by decide)
  have hslen : sd.length = t.length + 1 := by rw [hs]; rfl
  have hslen2 : 2 ≤ sd.length := by
    have := List.length_pos.mpr ht_ne
    omega
  refine ⟨htrim, ?_, ?_⟩
  · have h1 : startsWithCiL (sd ++ p) "```json".data = false := by rw [hs]; rfl
    have h2 : startsWithCiL (sd ++ p) "```".data = false := by rw [hs]; rfl
    have h3 : endsWithL (sd ++ p) "```".data = false := by
      unfold endsWithL
      rw [show sd ++ p = (sd ++ w) ++ [d] by rw [hw]; simp,
        List.reverse_append]
      show List.isPrefixOf ['`', '`', '`'] (d :: (sd ++ w).reverse) = false
      have hbeq : ('`' == d) = false := by
        rw [beq_eq_false_iff_ne]
        exact fun h => hd_tick h.symm
      simp [List.isPrefixOf, hbeq]
    simp only [stripFenceL, h1, h2, h3, Bool.false_eq_true, if_false]
    exact htrim
  · have hfi : List.findIdx? (fun c => c = '{') (sd ++ p) = some 0 := by
      rw [hs]; rfl
    have hrj : List.findIdx? (fun c => c = '}') ((sd ++ p).reverse)
        = some p.length := by
      rw [List.reverse_append, List.findIdx?_append]
      have hnone : List.findIdx? (fun c => c = '}') p.reverse = none := by
        rw [List.findIdx?_eq_none_iff]
        intro c hc
        have hcp : c ∈ p := List.mem_reverse.mp hc
        simpa using (hpchars c hcp).2.1
      have hsome : List.findIdx? (fun c => c = '}') sd.reverse = some 0 := by
        rw [hu, List.reverse_append]
        rfl
      rw [hnone, hsome]
      simp
    unfold sliceBraces
    rw [hfi, hrj]
    dsimp only
    have hlens : (sd ++ p).length - 1 - p.length = sd.length - 1 := by
      simp only [List.length_append]
      omega
    rw [hlens, if_pos (by omega)]
    rw [List.drop_zero, show sd.length - 1 + 1 - 0 = sd.length by omega,
      List.take_left]

lemma findSome?_cons_some {α β : Type} (f : α → Option β) (a : α) (l : List α)
    (b : β) (h : f a = some b) : List.findSome? f (a :: l) = some b := by
  rw [List.findSome?_cons, h]

lemma findSome?_cons_none {α β : Type} (f : α → Option β) (a : α) (l : List α)
    (h : f a = none) : List.findSome? f (a :: l) = List.findSome? f l := by
  rw [List.findSome?_cons, h]

lemma lookup_append_not_mem {β : Type} (k : String)
    (l₁ l₂ : List (String × β)) (h : k ∉ l₁.map Prod.fst) :
    List.lookup k (l₁ ++ l₂) = List.lookup k l₂ := by
  induction l₁ with
  | nil => rfl
  | cons a l ih =>
    simp only [List.map_cons, List.mem_cons] at h
    push_neg at h
    rw [List.cons_append, List.lookup]
    rw [beq_eq_false_iff_ne.mpr h.1]
    exact ih h.2

lemma str_append_ne_empty (a b : String) (h : 0 < a.length) : a ++ b ≠ "" := by
  intro hc
  have hlen := congrArg String.length hc
  rw [String.length_append] at hlen
  have : String.length "" = 0 := rfl
  omega

lemma buildActionSignature_ne_empty (a : FixedAction) :
    buildActionSignature a ≠ "" := by
  unfold buildActionSignature
  cases ha : a.action <;> simp only
  case click | double_click | right_click | move | long_press | drag
      | type | press | scroll | wait | shell =>
    apply str_append_ne_empty
    simp only [String.length_append]
    have hcolon : (":" : String).length = 1 := rfl
    omega
  case enter | task_complete => decide

lemma repeatedWarningText_ne_empty (c : Nat) (sig : String) :
    repeatedWarningText c sig ≠ "" := by
  apply str_append_ne_empty
  simp only [String.length_append]
  have : 0 < String.length "【系统提醒】你可能陷入了重复操作死循环：已连续 " := by decide
  omega

/-- C8: the repeated-action detector increments its counter on an action
whose signature equals the previous one and resets it to 1 otherwise, and
the injected warning text is non-empty exactly when the (updated) counter
is ≥ 3; concretely, three consecutive `click:500,300` actions produce a
non-empty warning on the third and on further repeats, and a differing
action afterwards clears it. -/
theorem repeated_action_detector_spec :
    (∀ (s : AgentState) (a : FixedAction),
      (updateRepeatedActionWarning s a).consecutiveSameActionCount
        = (if buildActionSignature a = s.lastActionSignature
           then s.consecutiveSameActionCount + 1 else 1)
      ∧ ((updateRepeatedActionWarning s a).repeatedActionWarning ≠ ""
          ↔ 3 ≤ (updateRepeatedActionWarning s a).consecutiveSameActionCount))
    ∧ (buildActionSignature
        { action := .click, x := some (some ⟨500, 0⟩), y := some (some ⟨300, 0⟩) }
        = "click:500,300"
      ∧ (updateRepeatedActionWarning ⟨[], none, none, "", "", 0⟩
          { action := .click, x := some (some ⟨500, 0⟩), y := some (some ⟨300, 0⟩) }
          ).repeatedActionWarning = ""
      ∧ (updateRepeatedActionWarning (updateRepeatedActionWarning
            ⟨[], none, none, "", "", 0⟩
            { action := .click, x := some (some ⟨500, 0⟩), y := some (some ⟨300, 0⟩) })
            { action := .click, x := some (some ⟨500, 0⟩), y := some (some ⟨300, 0⟩) }
          ).repeatedActionWarning = ""
      ∧ (updateRepeatedActionWarning (updateRepeatedActionWarning
            (updateRepeatedActionWarning ⟨[], none, none, "", "", 0⟩
              { action := .click, x := some (some ⟨500, 0⟩), y := some (some ⟨300, 0⟩) })
            { action := .click, x := some (some ⟨500, 0⟩), y := some (some ⟨300, 0⟩) })
            { action := .click, x := some (some ⟨500, 0⟩), y := some (some ⟨300, 0⟩) }
          ).repeatedActionWarning ≠ ""
      ∧ (updateRepeatedActionWarning (updateRepeatedActionWarning
            (updateRepeatedActionWarning ⟨[], none, none, "", "", 0⟩
              { action := .click, x := some (some ⟨500, 0⟩), y := some (some ⟨300, 0⟩) })
            { action := .click, x := some (some ⟨500, 0⟩), y := some (some ⟨300, 0⟩) })
            { action := .click, x := some (some ⟨500, 0⟩), y := some (some ⟨300, 0⟩) }
          ).consecutiveSameActionCount = 3
      ∧ (updateRepeatedActionWarning (updateRepeatedActionWarning
            (updateRepeatedActionWarning (updateRepeatedActionWarning
              ⟨[], none, none, "", "", 0⟩
              { action := .click, x := some (some ⟨500, 0⟩), y := some (some ⟨300, 0⟩) })
              { action := .click, x := some (some ⟨500, 0⟩), y := some (some ⟨300, 0⟩) })
            { action := .click, x := some (some ⟨500, 0⟩), y := some (some ⟨300, 0⟩) })
            { action := .click, x := some (some ⟨500, 0⟩), y := some (some ⟨300, 0⟩) }
          ).repeatedActionWarning ≠ ""
      ∧ (updateRepeatedActionWarning (updateRepeatedActionWarning
            (updateRepeatedActionWarning (updateRepeatedActionWarning
              ⟨[], none, none, "", "", 0⟩
              { action := .click, x := some (some ⟨500, 0⟩), y := some (some ⟨300, 0⟩) })
              { action := .click, x := some (some ⟨500, 0⟩), y := some (some ⟨300, 0⟩) })
            { action := .click, x := some (some ⟨500, 0⟩), y := some (some ⟨300, 0⟩) })
            { action := .click, x := some (some ⟨100, 0⟩), y := some (some ⟨300, 0⟩) }
          ).repeatedActionWarning = "") := by
  constructor
  · intro s a
    unfold updateRepeatedActionWarning
    rw [if_neg (buildActionSignature_ne_empty a)]
    by_cases hsig : buildActionSignature a = s.lastActionSignature
    · rw [if_pos hsig, if_pos hsig]
      by_cases h3 : s.consecutiveSameActionCount + 1 ≥ 3
      · rw [if_pos h3]
        exact ⟨rfl, by
          simp only [true_iff, h3, iff_true]
          exact repeatedWarningText_ne_empty _ _⟩
      · rw [if_neg h3]
        exact ⟨rfl, by simp only [ne_eq, not_true_eq_false, false_iff]; omega⟩
    · rw [if_neg hsig, if_neg hsig]
      have h3 : ¬ ((1 : Nat) ≥ 3) := by omega
      rw [if_neg h3]
      exact ⟨rfl, by simp only [ne_eq, not_true_eq_false, false_iff]; omega⟩
  · refine ⟨rfl, rfl, rfl, by decide, rfl, by decide, rfl⟩

/-- C9: after a successful shell execution whose original command has a
`cd`/`chdir` prefix, the tracked working directory is updated, resolving a
relative path against the previous tracked directory; concretely, from
`/home/user/app` the command `cd ../project && npm test` yields
`/home/user/project`, and in the run loop the next shell action without a
`work_dir` has the tracked directory injected. -/
theorem shell_dir_tracking
    (coordMap : Option JSNumber → Option JSNumber →
      Option JSNumber × Option JSNumber) :
    (∀ (c cmd cap : String),
      cdMatch cmd = some cap →
      pathIsAbsolute (stripQuotes cap) = false →
      c ≠ "" →
      updateWorkDirAfterShell (some c) cmd
        = some (resolvePath c (stripQuotes cap)))
    ∧ cdMatch "cd ../project && npm test" = some "../project"
    ∧ updateWorkDirAfterShell (some "/home/user/app") "cd ../project && npm test"
      = some "/home/user/project"
    ∧ ((runLoopGo coordMap
        [⟨true, .ok "t" { action := .shell, command := some "cd ../project && npm test" },
          true, true, true, true, true, true, some "ok"⟩,
         ⟨true, .ok "t" { action := .shell, command := some "npm test" },
          true, true, true, true, true, true, some "ok"⟩]
        ⟨[], none, some "/home/user/app", "", "", 0⟩ 0 []).2.2).map
          (fun a => a.work_dir)
      = [some "/home/user/app", some "/home/user/project"]
    ∧ (runLoopGo coordMap
        [⟨true, .ok "t" { action := .shell, command := some "cd ../project && npm test" },
          true, true, true, true, true, true, some "ok"⟩,
         ⟨true, .ok "t" { action := .shell, command := some "npm test" },
          true, true, true, true, true, true, some "ok"⟩]
        ⟨[], none, some "/home/user/app", "", "", 0⟩ 0 []).2.1.currentWorkDir
      = some "/home/user/project" := by
  refine ⟨?_, rfl, rfl, rfl, rfl⟩
  intro c cmd cap hmatch habs hc
  unfold updateWorkDirAfterShell
  rw [hmatch]
  have hcw : (!(c == "")) = true := by
    simp only [Bool.not_eq_true']
    exact beq_false_of_ne hc
  simp only [habs, hcw, Bool.not_false, Bool.and_self, if_true, Option.getD_some]

/-- C9 witness: the concrete scenario instantiating the general update
rule. -/
theorem shell_dir_tracking_witness :
    cdMatch "cd ../project && npm test" = some "../project"
    ∧ updateWorkDirAfterShell (some "/home/user/app") "cd ../project && npm test"
      = some (resolvePath "/home/user/app" (stripQuotes "../project")) := by
  refine ⟨rfl, ?_⟩
  exact (shell_dir_tracking (fun x y => (x, y))).1
    "/home/user/app" "cd ../project && npm test" "../project"
    rfl rfl (by decide)

/-- C10: `run()`'s per-run reset clears the action history, last shell
result and all loop-detection state but leaves the tracked working
directory untouched, so a later run's first shell action without a
`work_dir` is injected with the directory tracked during the earlier run.
-/
theorem run_reset_preserves_work_dir
    (coordMap : Option JSNumber → Option JSNumber →
      Option JSNumber × Option JSNumber) :
    (∀ (s : AgentState) (a : FixedAction),
      (resetForRun s).currentWorkDir = s.currentWorkDir
      ∧ (resetForRun s).previousActions = []
      ∧ (resetForRun s).lastShellResult = none
      ∧ (resetForRun s).repeatedActionWarning = ""
      ∧ (resetForRun s).lastActionSignature = ""
      ∧ (resetForRun s).consecutiveSameActionCount = 0
      ∧ injectWorkDir a (resetForRun s).currentWorkDir
        = injectWorkDir a s.currentWorkDir)
    ∧ ((runAgent coordMap
        [⟨true, .ok "t" { action := .shell, command := some "ls" },
          true, true, true, true, true, true, some "ok"⟩]
        ⟨[({ action := .click } : FixedAction)], some "old", some "/prev/dir",
          "w", "sig", 7⟩
        ).2.2).map (fun a => a.work_dir)
      = [some "/prev/dir"] := by
  exact ⟨fun s a => ⟨rfl, rfl, rfl, rfl, rfl, rfl, rfl⟩, rfl⟩

set_option maxHeartbeats 2000000 in
/-- C5: the Recoverer (candidate parsing plus normalization) maps each
malformed-but-recoverable variant of a well-formed completion to the same
normalized action: wrapping the JSON in a code fence, appending trailing
prose (brace-, quote- and backtick-free, as recoverability demands) to a
balanced object that no longer parses strictly, and packing the
coordinates into one 2-element array instead of separate x/y fields. -/
theorem recoverer_variants_agree
    (s prose : String) (t : List Char) (v : JValue)
    (hs : s.data = '{' :: t)
    (hlast : s.data.getLast? = some '}')
    (hparse : jsonParseL s.data = some v)
    (hpd : ∃ d, prose.data.getLast? = some d ∧ isWs d = false)
    (hpchars : ∀ c ∈ prose.data, c ≠ '{' ∧ c ≠ '}' ∧ c ≠ '`')
    (hmalformed : jsonParseL (s.data ++ prose.data) = none) :
    recoverAction ("```json\n" ++ s ++ "\n```") = recoverAction s
    ∧ recoverAction (s ++ prose) = recoverAction s
    ∧ ∀ (qx qy : JSNumber) (av : JValue) (fs : List (String × JValue)),
        "x" ∉ fs.map Prod.fst → "y" ∉ fs.map Prod.fst →
        fixActionFormat (some (.jobj (("action", av)
            :: ("x", .jarr [.jnum qx, .jnum qy]) :: fs)))
          = fixActionFormat (some (.jobj (("action", av)
            :: ("x", .jnum qx) :: ("y", .jnum qy) :: fs))) := by
  have hbare : parseResponseJsonL s.data = .ok v := by
    simp only [parseResponseJsonL]
    rw [(stripFence_bare hs hlast).1, (stripFence_bare hs hlast).2,
      List.singleton_append, List.cons_append,
      findSome?_cons_some jsonParseL _ _ v hparse]
  have hfence : parseResponseJsonL
      ("```json\n".data ++ (s.data ++ "\n```".data)) = .ok v := by
    simp only [parseResponseJsonL]
    rw [(stripFence_wrapped hs hlast).1, (stripFence_wrapped hs hlast).2,
      List.singleton_append, List.cons_append,
      findSome?_cons_some jsonParseL _ _ v hparse]
  have hproseL : parseResponseJsonL (s.data ++ prose.data) = .ok v := by
    obtain ⟨d, hpd', hdws⟩ := hpd
    obtain ⟨htr, hsf, hsl⟩ := prose_parts hs hlast hpd' hdws hpchars
    simp only [parseResponseJsonL]
    rw [htr, hsf, hsl]
    dsimp only
    rw [List.singleton_append, List.cons_append,
      findSome?_cons_none jsonParseL _ _ hmalformed,
      List.singleton_append,
      findSome?_cons_some jsonParseL _ _ v hparse]
  refine ⟨?_, ?_, ?_⟩
  · unfold recoverAction
    rw [show ("```json\n" ++ s ++ "\n```").data
        = "```json\n".data ++ (s.data ++ "\n```".data) by
      simp [String.data_append]]
    rw [hfence, hbare]
  · unfold recoverAction
    rw [String.data_append, hproseL, hbare]
  · intro qx qy av fs hfx hfy
    have hfxr : "x" ∉ fs.reverse.map Prod.fst := by
      simp only [List.map_reverse, List.mem_reverse]
      exact hfx
    have hfyr : "y" ∉ fs.reverse.map Prod.fst := by
      simp only [List.map_reverse, List.mem_reverse]
      exact hfy
    have hx1 : jsField (.jobj (("action", av)
        :: ("x", JValue.jarr [JValue.jnum qx, JValue.jnum qy]) :: fs)) "x"
        = some (JValue.jarr [JValue.jnum qx, JValue.jnum qy]) := by
      show List.lookup "x" _ = _
      rw [show (("action", av)
          :: ("x", JValue.jarr [JValue.jnum qx, JValue.jnum qy]) :: fs).reverse
          = fs.reverse ++ [("x", JValue.jarr [JValue.jnum qx, JValue.jnum qy]),
              ("action", av)] by simp]
      rw [lookup_append_not_mem _ _ _ hfxr]
      rfl
    have hx2 : jsField (.jobj (("action", av)
        :: ("x", JValue.jnum qx) :: ("y", JValue.jnum qy) :: fs)) "x"
        = some (JValue.jnum qx) := by
      show List.lookup "x" _ = _
      rw [show (("action", av)
          :: ("x", JValue.jnum qx) :: ("y", JValue.jnum qy) :: fs).reverse
          = fs.reverse ++ [("y", JValue.jnum qy), ("x", JValue.jnum qx),
              ("action", av)] by simp]
      rw [lookup_append_not_mem _ _ _ hfxr]
      rfl
    have hy2 : jsField (.jobj (("action", av)
        :: ("x", JValue.jnum qx) :: ("y", JValue.jnum qy) :: fs)) "y"
        = some (JValue.jnum qy) := by
      show List.lookup "y" _ = _
      rw [show (("action", av)
          :: ("x", JValue.jnum qx) :: ("y", JValue.jnum qy) :: fs).reverse
          = fs.reverse ++ [("y", JValue.jnum qy), ("x", JValue.jnum qx),
              ("action", av)] by simp]
      rw [lookup_append_not_mem _ _ _ hfyr]
      rfl
    have hother : ∀ n : String, (n == "x") = false → (n == "y") = false →
        jsField (.jobj (("action", av)
          :: ("x", JValue.jarr [JValue.jnum qx, JValue.jnum qy]) :: fs)) n
        = jsField (.jobj (("action", av)
          :: ("x", JValue.jnum qx) :: ("y", JValue.jnum qy) :: fs)) n := by
      intro n hnx hny
      show List.lookup n _ = List.lookup n _
      rw [show (("action", av)
          :: ("x", JValue.jarr [JValue.jnum qx, JValue.jnum qy]) :: fs).reverse
          = fs.reverse ++ [("x", JValue.jarr [JValue.jnum qx, JValue.jnum qy]),
              ("action", av)] by simp]
      rw [show (("action", av)
          :: ("x", JValue.jnum qx) :: ("y", JValue.jnum qy) :: fs).reverse
          = fs.reverse ++ [("y", JValue.jnum qy), ("x", JValue.jnum qx),
              ("action", av)] by simp]
      rw [List.lookup_append, List.lookup_append]
      apply congrArg
      simp [List.lookup, hnx, hny]
    simp only [fixActionFormat, Option.getD_some, jsTruthyOpt, jsTruthy,
      Bool.true_eq_false, if_false]
    rw [hx1, hx2, hy2,
      hother "action" (by decide) (by decide),
      hother "command" (by decide) (by decide),
      hother "end_x" (by decide) (by decide),
      hother "end_y" (by decide) (by decide),
      hother "text" (by decide) (by decide),
      hother "keys" (by decide) (by decide),
      hother "duration" (by decide) (by decide),
      hother "hold_seconds" (by decide) (by decide),
      hother "scroll_amount" (by decide) (by decide),
      hother "shell" (by decide) (by decide),
      hother "timeout" (by decide) (by decide),
      hother "work_dir" (by decide) (by decide),
      hother "capture_output" (by decide) (by decide)]
    simp [jsToNumber, List.getD]

/-- C5 witness: a concrete well-formed completion, its fenced and
prose-suffixed variants, and the array-coordinate variant. -/
theorem recoverer_variants_agree_witness :
    jsonParseL ("\x7b\"action\":\"click\"\x7d" : String).data
      = some (JValue.jobj [("action", JValue.jstr "click")])
    ∧ recoverAction ("```json\n" ++ "\x7b\"action\":\"click\"\x7d" ++ "\n```")
      = recoverAction "\x7b\"action\":\"click\"\x7d"
    ∧ recoverAction ("\x7b\"action\":\"click\"\x7d" ++ " done")
      = recoverAction "\x7b\"action\":\"click\"\x7d"
    ∧ fixActionFormat (some (.jobj [("action", JValue.jstr "click"),
        ("x", JValue.jarr [JValue.jnum ⟨500, 0⟩, JValue.jnum ⟨300, 0⟩])]))
      = fixActionFormat (some (.jobj [("action", JValue.jstr "click"),
        ("x", JValue.jnum ⟨500, 0⟩), ("y", JValue.jnum ⟨300, 0⟩)])) := by
  have h := recoverer_variants_agree "\x7b\"action\":\"click\"\x7d" " done"
    ("\"action\":\"click\"\x7d" : String).data
    (JValue.jobj [("action", JValue.jstr "click")])
    rfl rfl rfl ⟨'e', rfl, rfl⟩ (by decide) rfl
  exact ⟨rfl, h.1, h.2.1,
    h.2.2 ⟨500, 0⟩ ⟨300, 0⟩ (JValue.jstr "click") [] (by simp) (by simp)⟩

end AutoGUI
